import Mathlib

/-!
Verification of the healthdiary asynchronous entry-processing pipeline.

This file is a shallow embedding of the pipeline code:

* `server/services/transcribe.js` — `TranscribeService` (`startTranscriptionJob`,
  `processCompletedJobs`, `calculateAverageConfidence`);
* the scheduler service (`SchedulerService`: `start`/`stop`/`processJobs`/
  `getStatus`/`forceRun`) and the Anthropic analysis service
  (`AnthropicService.processCompletedTranscriptions`);
* the relevant rows of the SQLite tables `diary_entries`, `processing_jobs`,
  `users` are embedded as lists of structures, and each `db.run` UPDATE/INSERT
  becomes a pure list transformation.

External collaborators (AWS Transcribe, S3, the Anthropic API, wall-clock
timestamps) are modelled as oracles: pure functions supplied as parameters.
An `Except.error`/`none`/`false` oracle result models the corresponding
JavaScript call throwing (or reporting failure); the embedding then follows
the source's `try`/`catch` structure.  Database calls themselves are modelled
as always succeeding.
-/

namespace HealthDiary

/-- Status values stored in `transcription_status`, `analysis_status`
(diary_entries) and `status` (processing_jobs). -/
inductive Status where
  | pending
  | processing
  | completed
  | failed
deriving DecidableEq, Repr

/-- The `job_type` column of `processing_jobs`. -/
inductive JobType where
  | transcription
  | analysis
deriving DecidableEq, Repr

/-- One row of `diary_entries` (the columns the pipeline reads or writes). -/
structure Entry where
  id : Nat
  userId : Nat
  transcriptionStatus : Status
  analysisStatus : Status
  rawTranscriptS3Key : Option String
  structuredSummaryS3Key : Option String
deriving DecidableEq, Repr

/-- One row of `processing_jobs`. -/
structure Job where
  id : Nat
  entryId : Nat
  jobType : JobType
  status : Status
  awsJobId : String
  errorMessage : Option String
deriving DecidableEq, Repr

/-- One row of `users`, with the enabled `user_subjects` rows inlined
(they are only read, never written, by the pipeline). -/
structure User where
  id : Nat
  interactionStyle : String
  subjects : List String
deriving DecidableEq, Repr

/-- The record store: the three tables the pipeline touches. -/
structure DB where
  entries : List Entry
  jobs : List Job
  users : List User
deriving DecidableEq, Repr

/-- SELECT * FROM diary_entries WHERE id = ? (primary-key lookup). -/
def entryById (db : DB) (eid : Nat) : Option Entry :=
  db.entries.find? (fun e => e.id == eid)

/-- SELECT * FROM processing_jobs WHERE id = ?. -/
def jobById (db : DB) (jid : Nat) : Option Job :=
  db.jobs.find? (fun j => j.id == jid)

/-- SELECT * FROM users WHERE id = ?. -/
def userById (db : DB) (uid : Nat) : Option User :=
  db.users.find? (fun u => u.id == uid)

/-- UPDATE diary_entries SET ... WHERE id = ?: apply `f` to every row whose
`id` matches (ids are primary keys, so in a well-formed store one row). -/
def updateEntry (db : DB) (eid : Nat) (f : Entry → Entry) : DB :=
  { db with entries := db.entries.map (fun e => if e.id == eid then f e else e) }

/-- UPDATE processing_jobs SET ... WHERE id = ?. -/
def updateJob (db : DB) (jid : Nat) (f : Job → Job) : DB :=
  { db with jobs := db.jobs.map (fun j => if j.id == jid then f j else j) }

/-- Result of `transcribe.getTranscriptionJob`: the AWS job status, carrying
the transcript file URI on COMPLETED and the failure reason on FAILED.
Statuses other than COMPLETED and FAILED take the same (inactive) branch in
`processCompletedJobs`, so they are collapsed into `inProgress`. -/
inductive ProviderStatus where
  | inProgress
  | completed (transcriptFileUri : String)
  | failed (failureReason : String)
deriving DecidableEq, Repr

/-- One element of `alternatives` in the AWS transcript JSON.  `confidence`
is `parseFloat(item.alternatives[0].confidence)` of the source: `none` models
a value that does not parse as a number (which `|| 0` then turns into 0). -/
structure Alternative where
  confidence : Option ℚ
deriving DecidableEq, Repr

/-- One element of `transcript.results.items` in the AWS transcript JSON. -/
structure TranscriptItem where
  alternatives : List Alternative
deriving DecidableEq, Repr

/-- The parsed transcript JSON fetched by `getTranscriptionResult`:
the transcript text plus the per-token items. -/
structure TranscriptFile where
  transcriptText : String
  items : List TranscriptItem
deriving DecidableEq, Repr

/-- The external collaborators, as pure oracles fixed for the duration of the
calls under study.
* `transcribeStatus`: `checkTranscriptionStatus` keyed by `aws_job_id`;
  `Except.error ()` models the provider-status query throwing (a transient
  polling error), `Except.ok` an answer from the provider.
* `s3GetTranscript`: S3 fetch plus JSON parse of the transcript file, keyed by
  the transcript file URI; `none` models `getTranscriptionResult` throwing.
* `s3GetContent`: `s3Service.getFileContent` keyed by the stored S3 key;
  `none` models the blob store throwing.
* `s3UploadOk`: whether `s3Service.uploadTextFile` at (key, content) succeeds;
  `false` models the blob store throwing on upload.
* `anthropic`: `analyzeHealthDiary (transcript, interactionStyle, subjects)`;
  `some s` is a success whose structured summary serializes to `s`, `none`
  covers both an API error and an unparsable model response (both reach the
  same failed-marking code path in the source).
* `now`: the timestamp string used to build S3 object keys. -/
structure Oracles where
  transcribeStatus : String → Except Unit ProviderStatus
  s3GetTranscript : String → Option TranscriptFile
  s3GetContent : String → Option String
  s3UploadOk : String → String → Bool
  anthropic : String → String → List String → Option String
  now : String

/-- `TranscribeService.calculateAverageConfidence` from
`server/services/transcribe.js`: keep the items that have a first
alternative, read each one's parsed confidence (0 when unparsable), and
return `(sum / count) * 100`, or 0 when there are no items or no values. -/
def calculateAverageConfidence (items : List TranscriptItem) : ℚ :=
  if items.isEmpty then 0
  else
    let confidenceValues :=
      items.filterMap (fun it => it.alternatives.head?.map (fun a => a.confidence.getD 0))
    if confidenceValues.isEmpty then 0
    else (confidenceValues.sum / (confidenceValues.length : ℚ)) * 100

/-- The markdown document `processCompletedJobs` uploads for a completed
transcript (`toFixed`/locale formatting of the source is approximated by
`toString`; no theorem depends on the exact rendering). -/
def transcriptMarkdown (o : Oracles) (text : String) (confidence : ℚ) : String :=
  "# Health Diary Entry - " ++ o.now ++ "\n\n## Transcript\n" ++ text ++
    "\n\n## Metadata\n- **Confidence**: " ++ toString confidence ++
    "%\n- **Processed**: " ++ o.now ++ "\n"

/-- The S3 key `processCompletedJobs` stores a completed transcript under. -/
def transcriptKeyFor (o : Oracles) (uid : Nat) : String :=
  "users/" ++ toString uid ++ "/raw-transcripts/" ++ o.now ++ "-raw.md"

/-- The S3 key `processCompletedTranscriptions` stores a summary under. -/
def summaryKeyFor (o : Oracles) (uid : Nat) : String :=
  "users/" ++ toString uid ++ "/structured-summaries/" ++ o.now ++ "-summary.json"

/-- The snapshot taken by `processCompletedJobs`'s initial query:
SELECT pj.*, de.user_id FROM processing_jobs pj JOIN diary_entries de
ON pj.entry_id = de.id WHERE pj.job_type = 'transcription' AND
pj.status = 'processing'.  Each row is the job together with the joined
entry's `user_id`. -/
def selectedTranscriptionRows (db : DB) : List (Job × Nat) :=
  db.jobs.filterMap (fun j =>
    if j.jobType = JobType.transcription ∧ j.status = Status.processing then
      (entryById db j.entryId).map (fun e => (j, e.userId))
    else none)

/-- The loop body of `processCompletedJobs` for one snapshot row, threading
the record store and a count of writes (row INSERT/UPDATEs and blob puts).
The surrounding `try`/`catch` makes every thrown error (transient status
poll, transcript fetch/parse, upload) a no-op for this job. -/
def processOneJob (o : Oracles) (acc : DB × Nat) (row : Job × Nat) : DB × Nat :=
  match o.transcribeStatus row.1.awsJobId with
  | Except.error _ => acc
  | Except.ok ProviderStatus.inProgress => acc
  | Except.ok (ProviderStatus.completed uri) =>
    match o.s3GetTranscript uri with
    | none => acc
    | some tf =>
      let key := transcriptKeyFor o row.2
      let content := transcriptMarkdown o tf.transcriptText (calculateAverageConfidence tf.items)
      if o.s3UploadOk key content then
        let db1 := updateEntry acc.1 row.1.entryId (fun e =>
          { e with transcriptionStatus := Status.completed, rawTranscriptS3Key := some key })
        let db2 := updateJob db1 row.1.id (fun j => { j with status := Status.completed })
        (db2, acc.2 + 3)
      else acc
  | Except.ok (ProviderStatus.failed reason) =>
    let db1 := updateJob acc.1 row.1.id (fun j =>
      { j with status := Status.failed, errorMessage := some reason })
    let db2 := updateEntry db1 row.1.entryId (fun e =>
      { e with transcriptionStatus := Status.failed })
    (db2, acc.2 + 2)

/-- `TranscribeService.processCompletedJobs`: snapshot the processing
transcription jobs, then run the loop body over each row. -/
def processCompletedJobs (o : Oracles) (db : DB) : DB × Nat :=
  (selectedTranscriptionRows db).foldl (processOneJob o) (db, 0)

/-- The regex step of `processCompletedTranscriptions`: the source matches
the transcript body between the first `## Transcript` heading and the
following blank line plus `## Metadata` heading, trims it, and falls back to
the whole file content when the pattern does not match. -/
def extractTranscript (content : String) : String :=
  match content.splitOn "## Transcript\n" with
  | [] => content
  | [_] => content
  | _ :: rest =>
    match (String.intercalate "## Transcript\n" rest).splitOn "\n\n## Metadata" with
    | [] => content
    | [_] => content
    | seg :: _ => seg.trim

/-- The snapshot taken by `processCompletedTranscriptions`'s initial query:
SELECT de.*, u.interaction_style, u.id FROM diary_entries de JOIN users u ON
de.user_id = u.id WHERE de.transcription_status = 'completed' AND
de.analysis_status = 'pending' AND de.raw_transcript_s3_key IS NOT NULL. -/
def selectedAnalysisRows (db : DB) : List (Entry × User) :=
  db.entries.filterMap (fun e =>
    if e.transcriptionStatus = Status.completed ∧ e.analysisStatus = Status.pending ∧
        e.rawTranscriptS3Key.isSome then
      (userById db e.userId).map (fun u => (e, u))
    else none)

/-- The loop body of `processCompletedTranscriptions` for one snapshot row:
first fence the entry with `analysis_status = 'processing'`, then fetch the
transcript, call the analysis provider, and upload/commit.  The per-entry
`catch` (and the explicit unsuccessful-analysis branch) all end in
`analysis_status = 'failed'`. -/
def processOneEntry (o : Oracles) (acc : DB × Nat) (row : Entry × User) : DB × Nat :=
  let db1 := updateEntry acc.1 row.1.id (fun e =>
    { e with analysisStatus := Status.processing })
  let w1 := acc.2 + 1
  match o.s3GetContent (row.1.rawTranscriptS3Key.getD "") with
  | none =>
    (updateEntry db1 row.1.id (fun e => { e with analysisStatus := Status.failed }), w1 + 1)
  | some content =>
    match o.anthropic (extractTranscript content) row.2.interactionStyle row.2.subjects with
    | none =>
      (updateEntry db1 row.1.id (fun e => { e with analysisStatus := Status.failed }), w1 + 1)
    | some summaryJson =>
      let key := summaryKeyFor o row.1.userId
      if o.s3UploadOk key summaryJson then
        (updateEntry db1 row.1.id (fun e =>
          { e with analysisStatus := Status.completed,
                   structuredSummaryS3Key := some key }), w1 + 2)
      else
        (updateEntry db1 row.1.id (fun e => { e with analysisStatus := Status.failed }), w1 + 1)

/-- `AnthropicService.processCompletedTranscriptions`: snapshot the eligible
entries, then run the loop body over each row. -/
def processCompletedTranscriptions (o : Oracles) (db : DB) : DB × Nat :=
  (selectedAnalysisRows db).foldl (processOneEntry o) (db, 0)

/-- `TranscribeService.startTranscriptionJob`: submit the audio to the
provider; on success INSERT a `processing` transcription job and set the
entry's `transcription_status = 'processing'`; on submission failure set
`transcription_status = 'failed'` directly (and rethrow, leaving no job row).
`submitOk` is the provider's accept/reject answer, `jobId` the generated
UUID, `jobName` the generated `healthdiary-<entry>-<time>` provider name. -/
def startTranscriptionJob (submitOk : Bool) (jobId : Nat) (jobName : String)
    (entryId : Nat) (db : DB) : DB × Nat :=
  if submitOk then
    let db1 : DB := { db with jobs := db.jobs ++
      [{ id := jobId, entryId := entryId, jobType := JobType.transcription,
         status := Status.processing, awsJobId := jobName, errorMessage := none }] }
    (updateEntry db1 entryId (fun e =>
      { e with transcriptionStatus := Status.processing }), 2)
  else
    (updateEntry db entryId (fun e =>
      { e with transcriptionStatus := Status.failed }), 1)

/-- The in-memory fields of the `SchedulerService` singleton. -/
structure SchedulerState where
  isRunning : Bool
  processingInterval : Option Nat
deriving DecidableEq, Repr

/-- The body of one scheduler pass after the `isRunning` guard:
`ensureS3Setup` (which touches no records and swallows its errors), then
`transcribeService.processCompletedJobs`, then
`anthropicService.processCompletedTranscriptions`. -/
def tickBody (o : Oracles) (db : DB) : DB × Nat :=
  let r1 := processCompletedJobs o db
  let r2 := processCompletedTranscriptions o r1.1
  (r2.1, r1.2 + r2.2)

/-- `SchedulerService.processJobs`: `if (!this.isRunning) return;` then the
tick body. -/
def processJobs (ss : SchedulerState) (o : Oracles) (db : DB) : DB × Nat :=
  if ss.isRunning then tickBody o db else (db, 0)

/-- `SchedulerService.forceRun`: logs and then calls `this.processJobs()`. -/
def forceRun (ss : SchedulerState) (o : Oracles) (db : DB) : DB × Nat :=
  processJobs ss o db

/-- The object returned by `SchedulerService.getStatus`. -/
structure SchedulerStatus where
  isRunning : Bool
  hasInterval : Bool
  lastRun : String
deriving DecidableEq, Repr

/-- `SchedulerService.getStatus`: `lastRun` is `new Date().toISOString()`,
the wall clock at the moment of the call (`now`); nothing records when a
tick actually ran. -/
def getStatus (ss : SchedulerState) (now : String) : SchedulerStatus :=
  { isRunning := ss.isRunning
    hasInterval := ss.processingInterval.isSome
    lastRun := now }

/-- Events observable at the scheduler's concurrency boundary: the interval
timer firing its callback (`() => { this.processJobs(); }`, which neither
awaits the previous invocation nor checks any in-progress marker), and an
earlier `processJobs` invocation finishing. -/
inductive SchedulerEvent where
  | intervalFire
  | tickFinish
deriving DecidableEq, Repr

/-- Number of `processJobs` invocations executing after a sequence of events,
for a scheduler whose `isRunning` flag is `running`: an interval firing
starts an execution whenever `isRunning` holds — the only gate in the source
is `if (!this.isRunning) return`, and `SchedulerService` has no field that
records a tick in progress — and a finish retires one. -/
def activeTicks (running : Bool) (evs : List SchedulerEvent) : Nat :=
  evs.foldl (fun n ev =>
    match ev with
    | SchedulerEvent.intervalFire => if running then n + 1 else n
    | SchedulerEvent.tickFinish => n - 1) 0

/-- The record-store state after one full transcription reconcile pass. -/
def reconcileTranscription (o : Oracles) (db : DB) : DB :=
  (processCompletedJobs o db).1

/-- The record-store state after one full analysis reconcile pass. -/
def reconcileAnalysis (o : Oracles) (db : DB) : DB :=
  (processCompletedTranscriptions o db).1

/-- The record-store state after one full scheduler tick. -/
def tick (o : Oracles) (db : DB) : DB :=
  (tickBody o db).1

/-- Net effect of the `processCompletedJobs` loop body on one snapshot row,
expressed as a function of the oracles: nothing (provider still running, or
any caught error), completion with a transcript key, or provider-reported
failure with a reason. -/
inductive TranscriptionOutcome where
  | noop
  | complete (transcriptKey : String)
  | fail (reason : String)
deriving DecidableEq, Repr

/-- Outcome of one `processCompletedJobs` iteration for a snapshot row. -/
def jobOutcome (o : Oracles) (row : Job × Nat) : TranscriptionOutcome :=
  match o.transcribeStatus row.1.awsJobId with
  | Except.error _ => TranscriptionOutcome.noop
  | Except.ok ProviderStatus.inProgress => TranscriptionOutcome.noop
  | Except.ok (ProviderStatus.completed uri) =>
    match o.s3GetTranscript uri with
    | none => TranscriptionOutcome.noop
    | some tf =>
      if o.s3UploadOk (transcriptKeyFor o row.2)
          (transcriptMarkdown o tf.transcriptText (calculateAverageConfidence tf.items)) then
        TranscriptionOutcome.complete (transcriptKeyFor o row.2)
      else TranscriptionOutcome.noop
  | Except.ok (ProviderStatus.failed reason) => TranscriptionOutcome.fail reason

/-- The update the iteration for `row` applies to the job row it selected. -/
def jobUpd (o : Oracles) (row : Job × Nat) : Job → Job := fun j =>
  match jobOutcome o row with
  | TranscriptionOutcome.noop => j
  | TranscriptionOutcome.complete _ => { j with status := Status.completed }
  | TranscriptionOutcome.fail reason =>
      { j with status := Status.failed, errorMessage := some reason }

/-- The update the iteration for `row` applies to the joined entry row. -/
def entryUpdT (o : Oracles) (row : Job × Nat) : Entry → Entry := fun e =>
  match jobOutcome o row with
  | TranscriptionOutcome.noop => e
  | TranscriptionOutcome.complete key =>
      { e with transcriptionStatus := Status.completed, rawTranscriptS3Key := some key }
  | TranscriptionOutcome.fail _ => { e with transcriptionStatus := Status.failed }

/-- Number of store/blob writes the iteration for `row` performs. -/
def jobWrites (o : Oracles) (row : Job × Nat) : Nat :=
  match jobOutcome o row with
  | TranscriptionOutcome.noop => 0
  | TranscriptionOutcome.complete _ => 3
  | TranscriptionOutcome.fail _ => 2

/-- Net effect of the `processCompletedTranscriptions` loop body on one
snapshot row: the entry always ends in a terminal analysis status. -/
inductive AnalysisOutcome where
  | success (summaryKey : String)
  | failure
deriving DecidableEq, Repr

/-- Outcome of one `processCompletedTranscriptions` iteration for a row. -/
def analysisOutcome (o : Oracles) (row : Entry × User) : AnalysisOutcome :=
  match o.s3GetContent (row.1.rawTranscriptS3Key.getD "") with
  | none => AnalysisOutcome.failure
  | some content =>
    match o.anthropic (extractTranscript content) row.2.interactionStyle row.2.subjects with
    | none => AnalysisOutcome.failure
    | some summaryJson =>
      if o.s3UploadOk (summaryKeyFor o row.1.userId) summaryJson then
        AnalysisOutcome.success (summaryKeyFor o row.1.userId)
      else AnalysisOutcome.failure

/-- The update the iteration for `row` applies to the entry row it selected
(the intermediate `processing` fence composed with the final commit). -/
def entryUpdA (o : Oracles) (row : Entry × User) : Entry → Entry := fun e =>
  match analysisOutcome o row with
  | AnalysisOutcome.success key =>
      { e with analysisStatus := Status.completed, structuredSummaryS3Key := some key }
  | AnalysisOutcome.failure => { e with analysisStatus := Status.failed }

/-- Cumulative effect of a list of transcription snapshot rows on one entry
row: the first row joined to this entry (if any) rewrites it. -/
def applyRowsT (o : Oracles) (rows : List (Job × Nat)) (e : Entry) : Entry :=
  match rows.find? (fun r => r.1.entryId == e.id) with
  | some r => entryUpdT o r e
  | none => e

/-- Cumulative effect of a list of transcription snapshot rows on one job
row: the first row with this job id (if any) rewrites it. -/
def applyRowsJ (o : Oracles) (rows : List (Job × Nat)) (j : Job) : Job :=
  match rows.find? (fun r => r.1.id == j.id) with
  | some r => jobUpd o r j
  | none => j

/-- Cumulative effect of a list of analysis snapshot rows on one entry row. -/
def applyRowsA (o : Oracles) (rows : List (Entry × User)) (e : Entry) : Entry :=
  match rows.find? (fun r => r.1.id == e.id) with
  | some r => entryUpdA o r e
  | none => e

/-- Diary-entry primary keys are distinct. -/
def EntriesNodup (db : DB) : Prop := (db.entries.map Entry.id).Nodup

/-- Processing-job primary keys are distinct. -/
def JobsNodup (db : DB) : Prop := (db.jobs.map Job.id).Nodup

/-- Every outstanding (`processing`) transcription job belongs to an entry
whose `transcription_status` is `processing`: `startTranscriptionJob` creates
the job row and sets the entry to `processing` together, and
`processCompletedJobs` retires the job and commits the entry together. -/
def ProcessingJobEntryProcessing (db : DB) : Prop :=
  ∀ j ∈ db.jobs, j.jobType = JobType.transcription → j.status = Status.processing →
    ∀ e ∈ db.entries, e.id = j.entryId → e.transcriptionStatus = Status.processing

/-- At most one transcription job per entry is in `processing` at a time
(the upload handler starts exactly one job per freshly created entry). -/
def UniqueProcessing (db : DB) : Prop :=
  ∀ j ∈ db.jobs, ∀ j' ∈ db.jobs,
    j.jobType = JobType.transcription → j'.jobType = JobType.transcription →
    j.status = Status.processing → j'.status = Status.processing →
    j.entryId = j'.entryId → j = j'

/-- Well-formedness of a reachable record-store state. -/
def Inv (db : DB) : Prop :=
  EntriesNodup db ∧ JobsNodup db ∧ ProcessingJobEntryProcessing db ∧ UniqueProcessing db

/-- A status from which the pipeline never moves an entry again. -/
def statusTerminal (s : Status) : Prop :=
  s = Status.completed ∨ s = Status.failed

/-- Monotonicity of one pipeline step on one entry: terminal statuses are
unchanged, and no status is ever written back to `pending`. -/
def NoBackwardStep (e e' : Entry) : Prop :=
  (statusTerminal e.transcriptionStatus → e'.transcriptionStatus = e.transcriptionStatus) ∧
  (statusTerminal e.analysisStatus → e'.analysisStatus = e.analysisStatus) ∧
  (e'.transcriptionStatus = Status.pending → e.transcriptionStatus = Status.pending) ∧
  (e'.analysisStatus = Status.pending → e.analysisStatus = Status.pending)

/-- Modelled from the spec (refinement target for the confidence claim):
"the arithmetic mean of all token-level confidence values present in the
result; a result with zero scoreable tokens yields confidence 0". -/
def specMeanConfidence (items : List TranscriptItem) : ℚ :=
  let vals := items.filterMap (fun it => it.alternatives.head?.map (fun a => a.confidence.getD 0))
  if vals.isEmpty then 0 else vals.sum / (vals.length : ℚ)

/-- Three tokens with confidences 0.9, 0.8, 0.7 (spec Scenario E). -/
def claim3Items : List TranscriptItem :=
  [ { alternatives := [{ confidence := some (9/10) }] },
    { alternatives := [{ confidence := some (8/10) }] },
    { alternatives := [{ confidence := some (7/10) }] } ]

/-- Oracles for the concrete scenarios: nothing in flight, fetches fail. -/
def quietOracles : Oracles :=
  { transcribeStatus := fun _ => Except.ok ProviderStatus.inProgress
    s3GetTranscript := fun _ => none
    s3GetContent := fun _ => none
    s3UploadOk := fun _ _ => true
    anthropic := fun _ _ _ => some "summary"
    now := "t0" }

/-- A store holding one freshly uploaded entry (both statuses `pending`)
and no processing job. -/
def claim4DB : DB :=
  { entries := [{ id := 1, userId := 1, transcriptionStatus := Status.pending,
                  analysisStatus := Status.pending, rawTranscriptS3Key := none,
                  structuredSummaryS3Key := none }]
    jobs := []
    users := [{ id := 1, interactionStyle := "friendly", subjects := [] }] }

/-- A store holding one entry with completed transcription awaiting
analysis. -/
def claim6DB : DB :=
  { entries := [{ id := 1, userId := 1, transcriptionStatus := Status.completed,
                  analysisStatus := Status.pending,
                  rawTranscriptS3Key := some "users/1/raw-transcripts/x-raw.md",
                  structuredSummaryS3Key := none }]
    jobs := []
    users := [{ id := 1, interactionStyle := "friendly", subjects := [] }] }

/-- Oracles whose blob store is down for reads. -/
def claim6Oracles : Oracles :=
  { transcribeStatus := fun _ => Except.ok ProviderStatus.inProgress
    s3GetTranscript := fun _ => none
    s3GetContent := fun _ => none
    s3UploadOk := fun _ _ => true
    anthropic := fun _ _ _ => some "summary"
    now := "t0" }

/-- Store and oracles for the combined storage-failure witness: entry 1 has
an outstanding transcription job whose transcript fetch will fail; entry 2
awaits analysis but the transcript read will fail. -/
def claim6WitnessDB : DB :=
  { entries := [{ id := 1, userId := 1, transcriptionStatus := Status.processing,
                  analysisStatus := Status.pending, rawTranscriptS3Key := none,
                  structuredSummaryS3Key := none },
                { id := 2, userId := 2, transcriptionStatus := Status.completed,
                  analysisStatus := Status.pending,
                  rawTranscriptS3Key := some "users/2/raw-transcripts/y-raw.md",
                  structuredSummaryS3Key := none }]
    jobs := [{ id := 3, entryId := 1, jobType := JobType.transcription,
               status := Status.processing, awsJobId := "aw1", errorMessage := none }]
    users := [{ id := 1, interactionStyle := "friendly", subjects := [] },
              { id := 2, interactionStyle := "minimal", subjects := ["sleep"] }] }

def claim6WitnessOracles : Oracles :=
  { transcribeStatus := fun _ => Except.ok (ProviderStatus.completed "uriX")
    s3GetTranscript := fun _ => none
    s3GetContent := fun _ => none
    s3UploadOk := fun _ _ => true
    anthropic := fun _ _ _ => some "summary"
    now := "t0" }

/-- Store whose only entry would be advanced by a tick (analysis ready). -/
def claim9DB : DB :=
  { entries := [{ id := 1, userId := 1, transcriptionStatus := Status.completed,
                  analysisStatus := Status.pending,
                  rawTranscriptS3Key := some "users/1/raw-transcripts/x-raw.md",
                  structuredSummaryS3Key := none }]
    jobs := []
    users := [{ id := 1, interactionStyle := "friendly", subjects := [] }] }

def claim9Oracles : Oracles :=
  { transcribeStatus := fun _ => Except.ok ProviderStatus.inProgress
    s3GetTranscript := fun _ => none
    s3GetContent := fun _ => some "slept 7 hours, felt tired"
    s3UploadOk := fun _ _ => true
    anthropic := fun _ _ _ => some "summary"
    now := "t0" }

/-- Entry 1 is terminal in both stages; entry 2 has an outstanding
transcription job that the next tick will complete. -/
def claim2WitnessDB : DB :=
  { entries := [{ id := 1, userId := 1, transcriptionStatus := Status.completed,
                  analysisStatus := Status.failed, rawTranscriptS3Key := some "k1",
                  structuredSummaryS3Key := none },
                { id := 2, userId := 1, transcriptionStatus := Status.processing,
                  analysisStatus := Status.pending, rawTranscriptS3Key := none,
                  structuredSummaryS3Key := none }]
    jobs := [{ id := 5, entryId := 2, jobType := JobType.transcription,
               status := Status.processing, awsJobId := "aws2", errorMessage := none }]
    users := [{ id := 1, interactionStyle := "friendly", subjects := [] }] }

def claim2WitnessOracles : Oracles :=
  { transcribeStatus := fun _ => Except.ok (ProviderStatus.completed "uri2")
    s3GetTranscript := fun _ => some { transcriptText := "hello", items := [] }
    s3GetContent := fun _ => some "hello"
    s3UploadOk := fun _ _ => true
    anthropic := fun _ _ _ => some "summary"
    now := "t0" }

/-- The terminal entry of `claim2WitnessDB`. -/
def claim2Entry1 : Entry :=
  { id := 1, userId := 1, transcriptionStatus := Status.completed,
    analysisStatus := Status.failed, rawTranscriptS3Key := some "k1",
    structuredSummaryS3Key := none }

/-- Job 1's status poll will throw; job 2 will complete normally. -/
def claim5WitnessDB : DB :=
  { entries := [{ id := 10, userId := 1, transcriptionStatus := Status.processing,
                  analysisStatus := Status.pending, rawTranscriptS3Key := none,
                  structuredSummaryS3Key := none },
                { id := 20, userId := 2, transcriptionStatus := Status.processing,
                  analysisStatus := Status.pending, rawTranscriptS3Key := none,
                  structuredSummaryS3Key := none }]
    jobs := [{ id := 1, entryId := 10, jobType := JobType.transcription,
               status := Status.processing, awsJobId := "a1", errorMessage := none },
             { id := 2, entryId := 20, jobType := JobType.transcription,
               status := Status.processing, awsJobId := "a2", errorMessage := none }]
    users := [{ id := 1, interactionStyle := "friendly", subjects := [] },
              { id := 2, interactionStyle := "minimal", subjects := [] }] }

def claim5WitnessOracles : Oracles :=
  { transcribeStatus := fun name =>
      if name = "a1" then Except.error () else Except.ok (ProviderStatus.completed "u2")
    s3GetTranscript := fun _ => some { transcriptText := "t", items := [] }
    s3GetContent := fun _ => none
    s3UploadOk := fun _ _ => true
    anthropic := fun _ _ _ => none
    now := "t0" }

/-- The first (erroring) and second (completing) snapshot rows of
`claim5WitnessDB`. -/
def claim5Row1 : Job × Nat :=
  ({ id := 1, entryId := 10, jobType := JobType.transcription,
     status := Status.processing, awsJobId := "a1", errorMessage := none }, 1)

def claim5Row2 : Job × Nat :=
  ({ id := 2, entryId := 20, jobType := JobType.transcription,
     status := Status.processing, awsJobId := "a2", errorMessage := none }, 2)

/-- Store with one entry eligible for analysis, for the C1 and C7
witnesses' concrete runs. -/
def claim1WitnessDB : DB :=
  { entries := [{ id := 1, userId := 1, transcriptionStatus := Status.completed,
                  analysisStatus := Status.pending, rawTranscriptS3Key := some "k1",
                  structuredSummaryS3Key := none }]
    jobs := []
    users := [{ id := 1, interactionStyle := "friendly", subjects := [] }] }

def claim1WitnessOracles : Oracles :=
  { transcribeStatus := fun _ => Except.ok ProviderStatus.inProgress
    s3GetTranscript := fun _ => none
    s3GetContent := fun _ => some "some diary text"
    s3UploadOk := fun _ _ => true
    anthropic := fun _ _ _ => some "summary"
    now := "t0" }

/-- The entry of `claim1WitnessDB` before and after the analysis pass. -/
def claim1Entry : Entry :=
  { id := 1, userId := 1, transcriptionStatus := Status.completed,
    analysisStatus := Status.pending, rawTranscriptS3Key := some "k1",
    structuredSummaryS3Key := none }

def claim1EntryAfter : Entry :=
  { id := 1, userId := 1, transcriptionStatus := Status.completed,
    analysisStatus := Status.completed, rawTranscriptS3Key := some "k1",
    structuredSummaryS3Key := some "users/1/structured-summaries/t0-summary.json" }

/-- The transcription snapshot row of `claim6WitnessDB` (job 3, user 1). -/
def claim6JobRow : Job × Nat :=
  ({ id := 3, entryId := 1, jobType := JobType.transcription,
     status := Status.processing, awsJobId := "aw1", errorMessage := none }, 1)

/-- The analysis snapshot row of `claim6WitnessDB` (entry 2, user 2). -/
def claim6EntryRow : Entry × User :=
  ({ id := 2, userId := 2, transcriptionStatus := Status.completed,
     analysisStatus := Status.pending,
     rawTranscriptS3Key := some "users/2/raw-transcripts/y-raw.md",
     structuredSummaryS3Key := none },
   { id := 2, interactionStyle := "minimal", subjects := ["sleep"] })

def claim7WitnessDB : DB :=
  { entries := [{ id := 1, userId := 1, transcriptionStatus := Status.completed,
                  analysisStatus := Status.pending, rawTranscriptS3Key := some "k1",
                  structuredSummaryS3Key := none },
                { id := 2, userId := 1, transcriptionStatus := Status.processing,
                  analysisStatus := Status.pending, rawTranscriptS3Key := none,
                  structuredSummaryS3Key := none }]
    jobs := [{ id := 5, entryId := 2, jobType := JobType.transcription,
               status := Status.processing, awsJobId := "aws2", errorMessage := none }]
    users := [{ id := 1, interactionStyle := "friendly", subjects := [] }] }

def claim7WitnessOracles : Oracles :=
  { transcribeStatus := fun _ => Except.ok (ProviderStatus.completed "uri2")
    s3GetTranscript := fun _ => some { transcriptText := "hello", items := [] }
    s3GetContent := fun _ => some "hello"
    s3UploadOk := fun _ _ => true
    anthropic := fun _ _ _ => some "summary"
    now := "t0" }

section UpdateLemmas

theorem entryUpdT_id (o : Oracles) (row : Job × Nat) (e : Entry) :
    (entryUpdT o row e).id = e.id := by
  cases h : jobOutcome o row <;> simp [entryUpdT, h]

theorem entryUpdT_userId (o : Oracles) (row : Job × Nat) (e : Entry) :
    (entryUpdT o row e).userId = e.userId := by
  cases h : jobOutcome o row <;> simp [entryUpdT, h]

theorem entryUpdT_analysisStatus (o : Oracles) (row : Job × Nat) (e : Entry) :
    (entryUpdT o row e).analysisStatus = e.analysisStatus := by
  cases h : jobOutcome o row <;> simp [entryUpdT, h]

theorem jobUpd_id (o : Oracles) (row : Job × Nat) (j : Job) :
    (jobUpd o row j).id = j.id := by
  cases h : jobOutcome o row <;> simp [jobUpd, h]

theorem entryUpdA_id (o : Oracles) (row : Entry × User) (e : Entry) :
    (entryUpdA o row e).id = e.id := by
  cases h : analysisOutcome o row <;> simp [entryUpdA, h]

theorem entryUpdA_transcriptionStatus (o : Oracles) (row : Entry × User) (e : Entry) :
    (entryUpdA o row e).transcriptionStatus = e.transcriptionStatus := by
  cases h : analysisOutcome o row <;> simp [entryUpdA, h]

theorem entryUpdA_analysisStatus_ne_pending (o : Oracles) (row : Entry × User) (e : Entry) :
    (entryUpdA o row e).analysisStatus ≠ Status.pending := by
  cases h : analysisOutcome o row <;> simp [entryUpdA, h]

theorem entryById_updateJob (db : DB) (jid : Nat) (f : Job → Job) (eid : Nat) :
    entryById (updateJob db jid f) eid = entryById db eid := rfl

theorem jobById_updateEntry (db : DB) (tid : Nat) (f : Entry → Entry) (jid : Nat) :
    jobById (updateEntry db tid f) jid = jobById db jid := rfl

theorem entryById_updateEntry (db : DB) (tid : Nat) (f : Entry → Entry)
    (hf : ∀ e, (f e).id = e.id) (eid : Nat) :
    entryById (updateEntry db tid f) eid =
      (entryById db eid).map (fun e => if e.id == tid then f e else e) := by
  unfold entryById updateEntry
  rw [List.find?_map]
  have hp : ((fun e => e.id == eid) ∘ fun e => if e.id == tid then f e else e) =
      (fun e : Entry => e.id == eid) := by
    funext e
    by_cases h : e.id == tid <;> simp [Function.comp, h, hf]
  rw [hp]

theorem jobById_updateJob (db : DB) (tid : Nat) (f : Job → Job)
    (hf : ∀ j, (f j).id = j.id) (jid : Nat) :
    jobById (updateJob db tid f) jid =
      (jobById db jid).map (fun j => if j.id == tid then f j else j) := by
  unfold jobById updateJob
  rw [List.find?_map]
  have hp : ((fun j => j.id == jid) ∘ fun j => if j.id == tid then f j else j) =
      (fun j : Job => j.id == jid) := by
    funext j
    by_cases h : j.id == tid <;> simp [Function.comp, h, hf]
  rw [hp]

theorem entryById_updateEntry_self (db : DB) (tid : Nat) (f : Entry → Entry)
    (hf : ∀ e, (f e).id = e.id) :
    entryById (updateEntry db tid f) tid = (entryById db tid).map f := by
  rw [entryById_updateEntry db tid f hf tid]
  cases h : entryById db tid with
  | none => rfl
  | some e =>
    have he : e.id = tid := by simpa using List.find?_some h
    simp [he]

theorem jobById_updateJob_self (db : DB) (tid : Nat) (f : Job → Job)
    (hf : ∀ j, (f j).id = j.id) :
    jobById (updateJob db tid f) tid = (jobById db tid).map f := by
  rw [jobById_updateJob db tid f hf tid]
  cases h : jobById db tid with
  | none => rfl
  | some j =>
    have hj : j.id = tid := by simpa using List.find?_some h
    simp [hj]

end UpdateLemmas

section IterationLemmas

/-- The entries table after one `processCompletedJobs` iteration: the joined
entry row is rewritten by `entryUpdT`, every other row is untouched. -/
theorem processOneJob_entries (o : Oracles) (acc : DB × Nat) (row : Job × Nat) :
    (processOneJob o acc row).1.entries =
      acc.1.entries.map (fun e => if e.id == row.1.entryId then entryUpdT o row e else e) := by
  cases hs : o.transcribeStatus row.1.awsJobId with
  | error u => simp [processOneJob, entryUpdT, jobOutcome, hs, ite_self]
  | ok ps =>
    cases ps with
    | inProgress => simp [processOneJob, entryUpdT, jobOutcome, hs, ite_self]
    | completed uri =>
      cases hg : o.s3GetTranscript uri with
      | none => simp [processOneJob, entryUpdT, jobOutcome, hs, hg, ite_self]
      | some tf =>
        by_cases hu : o.s3UploadOk (transcriptKeyFor o row.2)
            (transcriptMarkdown o tf.transcriptText (calculateAverageConfidence tf.items))
        · simp [processOneJob, entryUpdT, jobOutcome, hs, hg, hu, updateJob, updateEntry]
        · simp [processOneJob, entryUpdT, jobOutcome, hs, hg, hu, ite_self]
    | failed reason => simp [processOneJob, entryUpdT, jobOutcome, hs, updateJob, updateEntry]

/-- The jobs table after one `processCompletedJobs` iteration: the selected
job row is rewritten by `jobUpd`, every other row is untouched. -/
theorem processOneJob_jobs (o : Oracles) (acc : DB × Nat) (row : Job × Nat) :
    (processOneJob o acc row).1.jobs =
      acc.1.jobs.map (fun j => if j.id == row.1.id then jobUpd o row j else j) := by
  cases hs : o.transcribeStatus row.1.awsJobId with
  | error u => simp [processOneJob, jobUpd, jobOutcome, hs, ite_self]
  | ok ps =>
    cases ps with
    | inProgress => simp [processOneJob, jobUpd, jobOutcome, hs, ite_self]
    | completed uri =>
      cases hg : o.s3GetTranscript uri with
      | none => simp [processOneJob, jobUpd, jobOutcome, hs, hg, ite_self]
      | some tf =>
        by_cases hu : o.s3UploadOk (transcriptKeyFor o row.2)
            (transcriptMarkdown o tf.transcriptText (calculateAverageConfidence tf.items))
        · simp [processOneJob, jobUpd, jobOutcome, hs, hg, hu, updateJob, updateEntry]
        · simp [processOneJob, jobUpd, jobOutcome, hs, hg, hu, ite_self]
    | failed reason => simp [processOneJob, jobUpd, jobOutcome, hs, updateJob, updateEntry]

theorem processOneJob_users (o : Oracles) (acc : DB × Nat) (row : Job × Nat) :
    (processOneJob o acc row).1.users = acc.1.users := by
  cases hs : o.transcribeStatus row.1.awsJobId with
  | error u => simp [processOneJob, hs]
  | ok ps =>
    cases ps with
    | inProgress => simp [processOneJob, hs]
    | completed uri =>
      cases hg : o.s3GetTranscript uri with
      | none => simp [processOneJob, hs, hg]
      | some tf =>
        by_cases hu : o.s3UploadOk (transcriptKeyFor o row.2)
            (transcriptMarkdown o tf.transcriptText (calculateAverageConfidence tf.items))
        · simp [processOneJob, hs, hg, hu, updateJob, updateEntry]
        · simp [processOneJob, hs, hg, hu]
    | failed reason => simp [processOneJob, hs, updateJob, updateEntry]

/-- An iteration whose outcome is `noop` performed no write at all. -/
theorem processOneJob_noop (o : Oracles) (acc : DB × Nat) (row : Job × Nat)
    (h : jobOutcome o row = TranscriptionOutcome.noop) :
    processOneJob o acc row = acc := by
  cases hs : o.transcribeStatus row.1.awsJobId with
  | error u => simp [processOneJob, hs]
  | ok ps =>
    cases ps with
    | inProgress => simp [processOneJob, hs]
    | completed uri =>
      cases hg : o.s3GetTranscript uri with
      | none => simp [processOneJob, hs, hg]
      | some tf =>
        by_cases hu : o.s3UploadOk (transcriptKeyFor o row.2)
            (transcriptMarkdown o tf.transcriptText (calculateAverageConfidence tf.items))
        · exfalso
          simp [jobOutcome, hs, hg, hu] at h
        · simp [processOneJob, hs, hg, hu]
    | failed reason =>
      exfalso
      simp [jobOutcome, hs] at h

/-- The entries table after one `processCompletedTranscriptions` iteration:
the selected entry row is rewritten by `entryUpdA` (the `processing` fence
composed with the terminal commit), every other row is untouched. -/
theorem processOneEntry_entries (o : Oracles) (acc : DB × Nat) (row : Entry × User) :
    (processOneEntry o acc row).1.entries =
      acc.1.entries.map (fun e => if e.id == row.1.id then entryUpdA o row e else e) := by
  cases hg : o.s3GetContent (row.1.rawTranscriptS3Key.getD "") with
  | none =>
    simp only [processOneEntry, entryUpdA, analysisOutcome, hg, updateEntry, List.map_map]
    refine List.map_congr_left (fun e _ => ?_)
    by_cases h : e.id == row.1.id <;> simp [Function.comp, h]
  | some content =>
    cases ha : o.anthropic (extractTranscript content) row.2.interactionStyle row.2.subjects with
    | none =>
      simp only [processOneEntry, entryUpdA, analysisOutcome, hg, ha, updateEntry, List.map_map]
      refine List.map_congr_left (fun e _ => ?_)
      by_cases h : e.id == row.1.id <;> simp [Function.comp, h]
    | some summaryJson =>
      by_cases hu : o.s3UploadOk (summaryKeyFor o row.1.userId) summaryJson
      · simp only [processOneEntry, entryUpdA, analysisOutcome, hg, ha, hu, if_true,
          updateEntry, List.map_map]
        refine List.map_congr_left (fun e _ => ?_)
        by_cases h : e.id == row.1.id <;> simp [Function.comp, h]
      · simp only [processOneEntry, entryUpdA, analysisOutcome, hg, ha, hu, if_false,
          Bool.false_eq_true, updateEntry, List.map_map]
        refine List.map_congr_left (fun e _ => ?_)
        by_cases h : e.id == row.1.id <;> simp [Function.comp, h]

theorem processOneEntry_jobs (o : Oracles) (acc : DB × Nat) (row : Entry × User) :
    (processOneEntry o acc row).1.jobs = acc.1.jobs := by
  cases hg : o.s3GetContent (row.1.rawTranscriptS3Key.getD "") with
  | none => simp [processOneEntry, hg, updateEntry]
  | some content =>
    cases ha : o.anthropic (extractTranscript content) row.2.interactionStyle row.2.subjects with
    | none => simp [processOneEntry, hg, ha, updateEntry]
    | some summaryJson =>
      by_cases hu : o.s3UploadOk (summaryKeyFor o row.1.userId) summaryJson
      · simp [processOneEntry, hg, ha, hu, updateEntry]
      · simp [processOneEntry, hg, ha, hu, updateEntry]

theorem processOneEntry_users (o : Oracles) (acc : DB × Nat) (row : Entry × User) :
    (processOneEntry o acc row).1.users = acc.1.users := by
  cases hg : o.s3GetContent (row.1.rawTranscriptS3Key.getD "") with
  | none => simp [processOneEntry, hg, updateEntry]
  | some content =>
    cases ha : o.anthropic (extractTranscript content) row.2.interactionStyle row.2.subjects with
    | none => simp [processOneEntry, hg, ha, updateEntry]
    | some summaryJson =>
      by_cases hu : o.s3UploadOk (summaryKeyFor o row.1.userId) summaryJson
      · simp [processOneEntry, hg, ha, hu, updateEntry]
      · simp [processOneEntry, hg, ha, hu, updateEntry]

end IterationLemmas

section FoldLemmas

theorem applyRowsT_nil (o : Oracles) (e : Entry) : applyRowsT o [] e = e := rfl

theorem applyRowsT_cons (o : Oracles) (r : Job × Nat) (rest : List (Job × Nat)) (e : Entry) :
    applyRowsT o (r :: rest) e =
      if r.1.entryId == e.id then entryUpdT o r e else applyRowsT o rest e := by
  by_cases h : (r.1.entryId == e.id) = true <;> simp [applyRowsT, h]

theorem applyRowsT_of_not_mem (o : Oracles) (rows : List (Job × Nat)) (e : Entry)
    (h : ∀ r ∈ rows, r.1.entryId ≠ e.id) : applyRowsT o rows e = e := by
  have : rows.find? (fun r => r.1.entryId == e.id) = none := by
    rw [List.find?_eq_none]
    intro r hr
    simpa using h r hr
  simp [applyRowsT, this]

theorem applyRowsT_id (o : Oracles) (rows : List (Job × Nat)) (e : Entry) :
    (applyRowsT o rows e).id = e.id := by
  cases h : rows.find? (fun r => r.1.entryId == e.id) <;>
    simp [applyRowsT, h, entryUpdT_id]

theorem applyRowsJ_cons (o : Oracles) (r : Job × Nat) (rest : List (Job × Nat)) (j : Job) :
    applyRowsJ o (r :: rest) j =
      if r.1.id == j.id then jobUpd o r j else applyRowsJ o rest j := by
  by_cases h : (r.1.id == j.id) = true <;> simp [applyRowsJ, h]

theorem applyRowsJ_of_not_mem (o : Oracles) (rows : List (Job × Nat)) (j : Job)
    (h : ∀ r ∈ rows, r.1.id ≠ j.id) : applyRowsJ o rows j = j := by
  have : rows.find? (fun r => r.1.id == j.id) = none := by
    rw [List.find?_eq_none]
    intro r hr
    simpa using h r hr
  simp [applyRowsJ, this]

theorem applyRowsJ_id (o : Oracles) (rows : List (Job × Nat)) (j : Job) :
    (applyRowsJ o rows j).id = j.id := by
  cases h : rows.find? (fun r => r.1.id == j.id) <;>
    simp [applyRowsJ, h, jobUpd_id]

theorem applyRowsA_cons (o : Oracles) (r : Entry × User) (rest : List (Entry × User)) (e : Entry) :
    applyRowsA o (r :: rest) e =
      if r.1.id == e.id then entryUpdA o r e else applyRowsA o rest e := by
  by_cases h : (r.1.id == e.id) = true <;> simp [applyRowsA, h]

theorem applyRowsA_of_not_mem (o : Oracles) (rows : List (Entry × User)) (e : Entry)
    (h : ∀ r ∈ rows, r.1.id ≠ e.id) : applyRowsA o rows e = e := by
  have : rows.find? (fun r => r.1.id == e.id) = none := by
    rw [List.find?_eq_none]
    intro r hr
    simpa using h r hr
  simp [applyRowsA, this]

theorem applyRowsA_id (o : Oracles) (rows : List (Entry × User)) (e : Entry) :
    (applyRowsA o rows e).id = e.id := by
  cases h : rows.find? (fun r => r.1.id == e.id) <;>
    simp [applyRowsA, h, entryUpdA_id]

theorem foldT_users (o : Oracles) (rows : List (Job × Nat)) (acc : DB × Nat) :
    ((rows.foldl (processOneJob o) acc).1).users = acc.1.users := by
  induction rows generalizing acc with
  | nil => rfl
  | cons r rest ih => rw [List.foldl_cons, ih, processOneJob_users]

/-- The entries table after the `processCompletedJobs` loop over `rows`:
each entry is rewritten by the (unique) row joined to it.  Requires the
rows' entry ids to be distinct, which the well-formedness invariant
guarantees for the selected snapshot. -/
theorem foldT_entries (o : Oracles) (rows : List (Job × Nat)) (acc : DB × Nat)
    (hN : (rows.map (fun r => r.1.entryId)).Nodup) :
    ((rows.foldl (processOneJob o) acc).1).entries =
      acc.1.entries.map (applyRowsT o rows) := by
  induction rows generalizing acc with
  | nil =>
    symm
    exact (List.map_congr_left (fun e _ => applyRowsT_nil o e)).trans (List.map_id _)
  | cons r rest ih =>
    rw [List.map_cons] at hN
    have hN' := List.nodup_cons.mp hN
    rw [List.foldl_cons, ih _ hN'.2, processOneJob_entries, List.map_map]
    refine List.map_congr_left (fun e _ => ?_)
    simp only [Function.comp, applyRowsT_cons]
    by_cases hc : r.1.entryId = e.id
    · have h1 : (e.id == r.1.entryId) = true := by simpa using hc.symm
      have h2 : (r.1.entryId == e.id) = true := by simpa using hc
      rw [if_pos h1, if_pos h2]
      refine applyRowsT_of_not_mem o rest (entryUpdT o r e) (fun x hx heq => ?_)
      rw [entryUpdT_id] at heq
      rw [← hc] at heq
      exact hN'.1 (by rw [← heq]; exact List.mem_map_of_mem _ hx)
    · have h1 : ¬ (e.id == r.1.entryId) = true := by simpa using fun h => hc h.symm
      have h2 : ¬ (r.1.entryId == e.id) = true := by simpa using hc
      rw [if_neg h1, if_neg h2]

/-- The jobs table after the `processCompletedJobs` loop over `rows`:
each job is rewritten by the (unique) row with its id. -/
theorem foldT_jobs (o : Oracles) (rows : List (Job × Nat)) (acc : DB × Nat)
    (hN : (rows.map (fun r => r.1.id)).Nodup) :
    ((rows.foldl (processOneJob o) acc).1).jobs =
      acc.1.jobs.map (applyRowsJ o rows) := by
  induction rows generalizing acc with
  | nil =>
    symm
    exact (List.map_congr_left (fun j _ => rfl)).trans (List.map_id _)
  | cons r rest ih =>
    rw [List.map_cons] at hN
    have hN' := List.nodup_cons.mp hN
    rw [List.foldl_cons, ih _ hN'.2, processOneJob_jobs, List.map_map]
    refine List.map_congr_left (fun j _ => ?_)
    simp only [Function.comp, applyRowsJ_cons]
    by_cases hc : r.1.id = j.id
    · have h1 : (j.id == r.1.id) = true := by simpa using hc.symm
      have h2 : (r.1.id == j.id) = true := by simpa using hc
      rw [if_pos h1, if_pos h2]
      refine applyRowsJ_of_not_mem o rest (jobUpd o r j) (fun x hx heq => ?_)
      rw [jobUpd_id] at heq
      rw [← hc] at heq
      exact hN'.1 (by rw [← heq]; exact List.mem_map_of_mem _ hx)
    · have h1 : ¬ (j.id == r.1.id) = true := by simpa using fun h => hc h.symm
      have h2 : ¬ (r.1.id == j.id) = true := by simpa using hc
      rw [if_neg h1, if_neg h2]

/-- A loop pass over rows that are all no-ops changes nothing and writes
nothing. -/
theorem foldT_noop (o : Oracles) (rows : List (Job × Nat)) (acc : DB × Nat)
    (h : ∀ r ∈ rows, jobOutcome o r = TranscriptionOutcome.noop) :
    rows.foldl (processOneJob o) acc = acc := by
  induction rows generalizing acc with
  | nil => rfl
  | cons r rest ih =>
    rw [List.foldl_cons, processOneJob_noop o acc r (h r (by simp))]
    exact ih _ (fun x hx => h x (by simp [hx]))

theorem foldA_users (o : Oracles) (rows : List (Entry × User)) (acc : DB × Nat) :
    ((rows.foldl (processOneEntry o) acc).1).users = acc.1.users := by
  induction rows generalizing acc with
  | nil => rfl
  | cons r rest ih => rw [List.foldl_cons, ih, processOneEntry_users]

theorem foldA_jobs (o : Oracles) (rows : List (Entry × User)) (acc : DB × Nat) :
    ((rows.foldl (processOneEntry o) acc).1).jobs = acc.1.jobs := by
  induction rows generalizing acc with
  | nil => rfl
  | cons r rest ih => rw [List.foldl_cons, ih, processOneEntry_jobs]

/-- The entries table after the `processCompletedTranscriptions` loop over
`rows`: each entry is rewritten by the (unique) row selecting it. -/
theorem foldA_entries (o : Oracles) (rows : List (Entry × User)) (acc : DB × Nat)
    (hN : (rows.map (fun r => r.1.id)).Nodup) :
    ((rows.foldl (processOneEntry o) acc).1).entries =
      acc.1.entries.map (applyRowsA o rows) := by
  induction rows generalizing acc with
  | nil =>
    symm
    exact (List.map_congr_left (fun e _ => rfl)).trans (List.map_id _)
  | cons r rest ih =>
    rw [List.map_cons] at hN
    have hN' := List.nodup_cons.mp hN
    rw [List.foldl_cons, ih _ hN'.2, processOneEntry_entries, List.map_map]
    refine List.map_congr_left (fun e _ => ?_)
    simp only [Function.comp, applyRowsA_cons]
    by_cases hc : r.1.id = e.id
    · have h1 : (e.id == r.1.id) = true := by simpa using hc.symm
      have h2 : (r.1.id == e.id) = true := by simpa using hc
      rw [if_pos h1, if_pos h2]
      refine applyRowsA_of_not_mem o rest (entryUpdA o r e) (fun x hx heq => ?_)
      rw [entryUpdA_id] at heq
      rw [← hc] at heq
      exact hN'.1 (by rw [← heq]; exact List.mem_map_of_mem _ hx)
    · have h1 : ¬ (e.id == r.1.id) = true := by simpa using fun h => hc h.symm
      have h2 : ¬ (r.1.id == e.id) = true := by simpa using hc
      rw [if_neg h1, if_neg h2]

end FoldLemmas

section SnapshotLemmas

theorem mem_selectedTranscriptionRows {db : DB} {row : Job × Nat} :
    row ∈ selectedTranscriptionRows db ↔
      row.1 ∈ db.jobs ∧ row.1.jobType = JobType.transcription ∧
      row.1.status = Status.processing ∧
      ∃ e, entryById db row.1.entryId = some e ∧ row.2 = e.userId := by
  constructor
  · intro h
    obtain ⟨j, hj, hfj⟩ := List.mem_filterMap.mp h
    by_cases hc : j.jobType = JobType.transcription ∧ j.status = Status.processing
    · rw [if_pos hc] at hfj
      obtain ⟨e, he, heq⟩ := Option.map_eq_some'.mp hfj
      subst heq
      exact ⟨hj, hc.1, hc.2, e, he, rfl⟩
    · rw [if_neg hc] at hfj
      cases hfj
  · rintro ⟨hmem, ht, hs, e, he, hu⟩
    refine List.mem_filterMap.mpr ⟨row.1, hmem, ?_⟩
    rw [if_pos ⟨ht, hs⟩, he]
    show some (row.1, e.userId) = some row
    rw [← hu]

theorem mem_selectedAnalysisRows {db : DB} {row : Entry × User} :
    row ∈ selectedAnalysisRows db ↔
      row.1 ∈ db.entries ∧ row.1.transcriptionStatus = Status.completed ∧
      row.1.analysisStatus = Status.pending ∧ row.1.rawTranscriptS3Key.isSome = true ∧
      userById db row.1.userId = some row.2 := by
  constructor
  · intro h
    obtain ⟨e, he, hfe⟩ := List.mem_filterMap.mp h
    by_cases hc : e.transcriptionStatus = Status.completed ∧
        e.analysisStatus = Status.pending ∧ e.rawTranscriptS3Key.isSome = true
    · rw [if_pos hc] at hfe
      obtain ⟨u, hu, heq⟩ := Option.map_eq_some'.mp hfe
      subst heq
      exact ⟨he, hc.1, hc.2.1, hc.2.2, hu⟩
    · rw [if_neg hc] at hfe
      cases hfe
  · rintro ⟨hmem, ht, hs, hk, hu⟩
    refine List.mem_filterMap.mpr ⟨row.1, hmem, ?_⟩
    rw [if_pos ⟨ht, hs, hk⟩, hu]
    rfl

/-- Mapping a projection over a `filterMap` whose results carry the source
row is a sublist of mapping the matching projection over the source list. -/
theorem map_filterMap_sublist {α β γ : Type} (l : List α) (g : α → Option β)
    (h : β → γ) (h' : α → γ) (hg : ∀ a b, g a = some b → h b = h' a) :
    ((l.filterMap g).map h).Sublist (l.map h') := by
  induction l with
  | nil => simp
  | cons a rest ih =>
    cases hga : g a with
    | none =>
      rw [List.filterMap_cons_none hga, List.map_cons]
      exact (ih).cons _
    | some b =>
      rw [List.filterMap_cons_some hga, List.map_cons, List.map_cons, hg a b hga]
      exact (ih).cons₂ _

theorem nodup_selT_jobIds (db : DB) (h : JobsNodup db) :
    ((selectedTranscriptionRows db).map (fun r => r.1.id)).Nodup := by
  refine List.Nodup.sublist ?_ h
  unfold selectedTranscriptionRows
  refine map_filterMap_sublist db.jobs _ _ Job.id (fun j row hrow => ?_)
  by_cases hc : j.jobType = JobType.transcription ∧ j.status = Status.processing
  · rw [if_pos hc] at hrow
    obtain ⟨e, _, heq⟩ := Option.map_eq_some'.mp hrow
    subst heq
    rfl
  · rw [if_neg hc] at hrow
    cases hrow

theorem nodup_selA_entryIds (db : DB) (h : EntriesNodup db) :
    ((selectedAnalysisRows db).map (fun r => r.1.id)).Nodup := by
  refine List.Nodup.sublist ?_ h
  unfold selectedAnalysisRows
  refine map_filterMap_sublist db.entries _ _ Entry.id (fun e row hrow => ?_)
  by_cases hc : e.transcriptionStatus = Status.completed ∧
      e.analysisStatus = Status.pending ∧ e.rawTranscriptS3Key.isSome = true
  · rw [if_pos hc] at hrow
    obtain ⟨u, _, heq⟩ := Option.map_eq_some'.mp hrow
    subst heq
    rfl
  · rw [if_neg hc] at hrow
    cases hrow

theorem nodup_selT_entryIds (db : DB) (hjobs : JobsNodup db)
    (huniq : UniqueProcessing db) :
    ((selectedTranscriptionRows db).map (fun r => r.1.entryId)).Nodup := by
  have hid := nodup_selT_jobIds db hjobs
  unfold List.Nodup at hid ⊢
  rw [List.pairwise_map] at hid ⊢
  refine hid.imp_of_mem (fun {r r'} hr hr' hne heq => hne ?_)
  obtain ⟨hmem, ht, hs, _⟩ := mem_selectedTranscriptionRows.mp hr
  obtain ⟨hmem', ht', hs', _⟩ := mem_selectedTranscriptionRows.mp hr'
  rw [huniq r.1 hmem r'.1 hmem' ht ht' hs hs' heq]

end SnapshotLemmas

section ReconcileLemmas

theorem tick_eq (o : Oracles) (db : DB) :
    tick o db = reconcileAnalysis o (reconcileTranscription o db) := rfl

theorem reconcileTranscription_users (o : Oracles) (db : DB) :
    (reconcileTranscription o db).users = db.users :=
  foldT_users o _ (db, 0)

theorem reconcileAnalysis_users (o : Oracles) (db : DB) :
    (reconcileAnalysis o db).users = db.users :=
  foldA_users o _ (db, 0)

theorem reconcileAnalysis_jobs (o : Oracles) (db : DB) :
    (reconcileAnalysis o db).jobs = db.jobs :=
  foldA_jobs o _ (db, 0)

/-- Projection stability: updating rows selected by `c` with a `p`-preserving
rewrite leaves the `p`-projection of a lookup unchanged. -/
theorem proj_map_update {α β : Type} (x : Option α) (f : α → α) (p : α → β)
    (hp : ∀ a, p (f a) = p a) (c : α → Bool) :
    (x.map (fun a => if c a then f a else a)).map p = x.map p := by
  cases x with
  | none => rfl
  | some a =>
    by_cases h : c a <;> simp [h, hp]

theorem find?_map_id_entries (l : List Entry) (g : Entry → Entry)
    (hg : ∀ e, (g e).id = e.id) (eid : Nat) :
    (l.map g).find? (fun e => e.id == eid) = (l.find? (fun e => e.id == eid)).map g := by
  rw [List.find?_map]
  have hp : ((fun e => e.id == eid) ∘ g) = (fun e : Entry => e.id == eid) := by
    funext e
    simp [Function.comp, hg]
  rw [hp]

theorem find?_map_id_jobs (l : List Job) (g : Job → Job)
    (hg : ∀ j, (g j).id = j.id) (jid : Nat) :
    (l.map g).find? (fun j => j.id == jid) = (l.find? (fun j => j.id == jid)).map g := by
  rw [List.find?_map]
  have hp : ((fun j => j.id == jid) ∘ g) = (fun j : Job => j.id == jid) := by
    funext j
    simp [Function.comp, hg]
  rw [hp]

/-- Entry lookup through a transcription reconcile pass. -/
theorem entryById_reconcileTranscription (o : Oracles) (db : DB)
    (hN : ((selectedTranscriptionRows db).map (fun r => r.1.entryId)).Nodup) (eid : Nat) :
    entryById (reconcileTranscription o db) eid =
      (entryById db eid).map (applyRowsT o (selectedTranscriptionRows db)) := by
  unfold entryById reconcileTranscription processCompletedJobs
  rw [foldT_entries o _ (db, 0) hN]
  exact find?_map_id_entries db.entries _ (applyRowsT_id o _) eid

/-- Job lookup through a transcription reconcile pass. -/
theorem jobById_reconcileTranscription (o : Oracles) (db : DB)
    (hN : ((selectedTranscriptionRows db).map (fun r => r.1.id)).Nodup) (jid : Nat) :
    jobById (reconcileTranscription o db) jid =
      (jobById db jid).map (applyRowsJ o (selectedTranscriptionRows db)) := by
  unfold jobById reconcileTranscription processCompletedJobs
  rw [foldT_jobs o _ (db, 0) hN]
  exact find?_map_id_jobs db.jobs _ (applyRowsJ_id o _) jid

/-- Entry lookup through an analysis reconcile pass. -/
theorem entryById_reconcileAnalysis (o : Oracles) (db : DB)
    (hN : ((selectedAnalysisRows db).map (fun r => r.1.id)).Nodup) (eid : Nat) :
    entryById (reconcileAnalysis o db) eid =
      (entryById db eid).map (applyRowsA o (selectedAnalysisRows db)) := by
  unfold entryById reconcileAnalysis processCompletedTranscriptions
  rw [foldA_entries o _ (db, 0) hN]
  exact find?_map_id_entries db.entries _ (applyRowsA_id o _) eid

/-- Transcription reconciliation and `startTranscriptionJob` never change any
entry's `analysis_status` (no Nodup hypothesis needed). -/
theorem analysisStatus_foldT (o : Oracles) (rows : List (Job × Nat)) (acc : DB × Nat)
    (eid : Nat) :
    (entryById ((rows.foldl (processOneJob o) acc).1) eid).map Entry.analysisStatus =
      (entryById acc.1 eid).map Entry.analysisStatus := by
  induction rows generalizing acc with
  | nil => rfl
  | cons r rest ih =>
    rw [List.foldl_cons, ih]
    have h1 : entryById (processOneJob o acc r).1 eid =
        (entryById acc.1 eid).map
          (fun e => if e.id == r.1.entryId then entryUpdT o r e else e) := by
      unfold entryById
      rw [processOneJob_entries]
      exact find?_map_id_entries acc.1.entries _
        (fun e => by by_cases h : (e.id == r.1.entryId) = true <;> simp [h, entryUpdT_id]) eid
    rw [h1]
    exact proj_map_update (entryById acc.1 eid) (entryUpdT o r) Entry.analysisStatus
      (entryUpdT_analysisStatus o r) _

theorem analysisStatus_reconcileTranscription (o : Oracles) (db : DB) (eid : Nat) :
    (entryById (reconcileTranscription o db) eid).map Entry.analysisStatus =
      (entryById db eid).map Entry.analysisStatus :=
  analysisStatus_foldT o _ (db, 0) eid

theorem analysisStatus_startTranscriptionJob (submitOk : Bool) (jobId : Nat)
    (jobName : String) (entryId : Nat) (db : DB) (eid : Nat) :
    (entryById (startTranscriptionJob submitOk jobId jobName entryId db).1 eid).map
        Entry.analysisStatus =
      (entryById db eid).map Entry.analysisStatus := by
  cases submitOk with
  | true =>
    have h1 : entryById (startTranscriptionJob true jobId jobName entryId db).1 eid =
        (entryById db eid).map
          (fun e => if e.id == entryId then
            { e with transcriptionStatus := Status.processing } else e) := by
      unfold startTranscriptionJob entryById updateEntry
      exact find?_map_id_entries db.entries _ (fun e => by
        by_cases h : (e.id == entryId) = true <;> simp [h]) eid
    rw [h1]
    exact proj_map_update (entryById db eid)
      (fun e => { e with transcriptionStatus := Status.processing })
      Entry.analysisStatus (fun e => rfl) (fun e => e.id == entryId)
  | false =>
    have h1 : entryById (startTranscriptionJob false jobId jobName entryId db).1 eid =
        (entryById db eid).map
          (fun e => if e.id == entryId then
            { e with transcriptionStatus := Status.failed } else e) := by
      unfold startTranscriptionJob entryById updateEntry
      exact find?_map_id_entries db.entries _ (fun e => by
        by_cases h : (e.id == entryId) = true <;> simp [h]) eid
    rw [h1]
    exact proj_map_update (entryById db eid)
      (fun e => { e with transcriptionStatus := Status.failed })
      Entry.analysisStatus (fun e => rfl) (fun e => e.id == entryId)

end ReconcileLemmas

section KeyLemmas

theorem entryUpdA_userId (o : Oracles) (row : Entry × User) (e : Entry) :
    (entryUpdA o row e).userId = e.userId := by
  cases h : analysisOutcome o row <;> simp [entryUpdA, h]

/-- In a list with distinct keys, `find?` by the key of a member returns
that member. -/
theorem find?_beq_of_mem_nodup {α : Type} (f : α → Nat) {l : List α}
    (hN : (l.map f).Nodup) {a : α} (ha : a ∈ l) :
    l.find? (fun x => f x == f a) = some a := by
  induction l with
  | nil => cases ha
  | cons x xs ih =>
    rw [List.map_cons] at hN
    have hN' := List.nodup_cons.mp hN
    rcases List.mem_cons.mp ha with rfl | hmem
    · rw [List.find?_cons_of_pos _ (by simp)]
    · by_cases hx : f x = f a
      · exact absurd (hx ▸ List.mem_map_of_mem f hmem) hN'.1
      · rw [List.find?_cons_of_neg _ (by simpa using hx)]
        exact ih hN'.2 hmem

/-- In a list with distinct keys, two members with the same key are equal. -/
theorem eq_of_mem_nodup {α : Type} (f : α → Nat) {l : List α}
    (hN : (l.map f).Nodup) {x y : α} (hx : x ∈ l) (hy : y ∈ l) (h : f x = f y) :
    x = y := by
  have h1 := find?_beq_of_mem_nodup f hN hx
  have h2 := find?_beq_of_mem_nodup f hN hy
  rw [h] at h1
  exact Option.some.inj (h1.symm.trans h2)

theorem entryById_of_mem {db : DB} (hN : EntriesNodup db) {e : Entry}
    (he : e ∈ db.entries) : entryById db e.id = some e :=
  find?_beq_of_mem_nodup Entry.id hN he

theorem jobById_of_mem {db : DB} (hN : JobsNodup db) {j : Job}
    (hj : j ∈ db.jobs) : jobById db j.id = some j :=
  find?_beq_of_mem_nodup Job.id hN hj

theorem mem_of_entryById {db : DB} {eid : Nat} {e : Entry}
    (h : entryById db eid = some e) : e ∈ db.entries ∧ e.id = eid :=
  ⟨List.mem_of_find?_eq_some h, by simpa using List.find?_some h⟩

theorem mem_of_jobById {db : DB} {jid : Nat} {j : Job}
    (h : jobById db jid = some j) : j ∈ db.jobs ∧ j.id = jid :=
  ⟨List.mem_of_find?_eq_some h, by simpa using List.find?_some h⟩

/-- Entry ids are untouched by a transcription reconcile pass. -/
theorem entryIds_reconcileTranscription (o : Oracles) (db : DB)
    (hN : ((selectedTranscriptionRows db).map (fun r => r.1.entryId)).Nodup) :
    (reconcileTranscription o db).entries.map Entry.id = db.entries.map Entry.id := by
  unfold reconcileTranscription processCompletedJobs
  rw [foldT_entries o _ (db, 0) hN, List.map_map]
  exact List.map_congr_left (fun e _ => applyRowsT_id o _ e)

/-- Entry ids are untouched by an analysis reconcile pass. -/
theorem entryIds_reconcileAnalysis (o : Oracles) (db : DB)
    (hN : ((selectedAnalysisRows db).map (fun r => r.1.id)).Nodup) :
    (reconcileAnalysis o db).entries.map Entry.id = db.entries.map Entry.id := by
  unfold reconcileAnalysis processCompletedTranscriptions
  rw [foldA_entries o _ (db, 0) hN, List.map_map]
  exact List.map_congr_left (fun e _ => applyRowsA_id o _ e)

theorem entriesNodup_reconcileTranscription (o : Oracles) (db : DB)
    (hN : ((selectedTranscriptionRows db).map (fun r => r.1.entryId)).Nodup)
    (h : EntriesNodup db) : EntriesNodup (reconcileTranscription o db) := by
  unfold EntriesNodup
  rw [entryIds_reconcileTranscription o db hN]
  exact h

end KeyLemmas

section RowLemmas

theorem applyRowsT_userId (o : Oracles) (rows : List (Job × Nat)) (e : Entry) :
    (applyRowsT o rows e).userId = e.userId := by
  cases h : rows.find? (fun r => r.1.entryId == e.id) <;>
    simp [applyRowsT, h, entryUpdT_userId]

theorem applyRowsA_userId (o : Oracles) (rows : List (Entry × User)) (e : Entry) :
    (applyRowsA o rows e).userId = e.userId := by
  cases h : rows.find? (fun r => r.1.id == e.id) <;>
    simp [applyRowsA, h, entryUpdA_userId]

/-- With distinct job ids, the row list's effect on a member row's job is
exactly that row's own update. -/
theorem applyRowsJ_self (o : Oracles) (rows : List (Job × Nat))
    (hN : (rows.map (fun r => r.1.id)).Nodup) (row : Job × Nat) (hmem : row ∈ rows) :
    applyRowsJ o rows row.1 = jobUpd o row row.1 := by
  unfold applyRowsJ
  cases hfind : rows.find? (fun r => r.1.id == row.1.id) with
  | none =>
    have := List.find?_eq_none.mp hfind row hmem
    simp at this
  | some r' =>
    have hr'mem := List.mem_of_find?_eq_some hfind
    have hid : r'.1.id = row.1.id := by simpa using List.find?_some hfind
    have hr : r' = row := eq_of_mem_nodup (fun r => r.1.id) hN hr'mem hmem hid
    rw [hr]

/-- With distinct joined entry ids, the row list's effect on the entry a
member row joins to is exactly that row's own update. -/
theorem applyRowsT_self (o : Oracles) (rows : List (Job × Nat))
    (hN : (rows.map (fun r => r.1.entryId)).Nodup) (row : Job × Nat) (hmem : row ∈ rows)
    (e : Entry) (he : row.1.entryId = e.id) :
    applyRowsT o rows e = entryUpdT o row e := by
  unfold applyRowsT
  cases hfind : rows.find? (fun r => r.1.entryId == e.id) with
  | none =>
    have := List.find?_eq_none.mp hfind row hmem
    rw [he] at this
    simp at this
  | some r' =>
    have hr'mem := List.mem_of_find?_eq_some hfind
    have hid : r'.1.entryId = e.id := by simpa using List.find?_some hfind
    have hr : r' = row := eq_of_mem_nodup (fun r => r.1.entryId) hN hr'mem hmem
      (by show r'.1.entryId = row.1.entryId; rw [hid, he])
    rw [hr]

theorem applyRowsA_self (o : Oracles) (rows : List (Entry × User))
    (hN : (rows.map (fun r => r.1.id)).Nodup) (row : Entry × User) (hmem : row ∈ rows)
    (e : Entry) (he : row.1.id = e.id) :
    applyRowsA o rows e = entryUpdA o row e := by
  unfold applyRowsA
  cases hfind : rows.find? (fun r => r.1.id == e.id) with
  | none =>
    have := List.find?_eq_none.mp hfind row hmem
    rw [he] at this
    simp at this
  | some r' =>
    have hr'mem := List.mem_of_find?_eq_some hfind
    have hid : r'.1.id = e.id := by simpa using List.find?_some hfind
    have hr : r' = row := eq_of_mem_nodup (fun r => r.1.id) hN hr'mem hmem
      (by show r'.1.id = row.1.id; rw [hid, he])
    rw [hr]

/-- The jobs table after a transcription reconcile, list form. -/
theorem reconcileTranscription_jobs (o : Oracles) (db : DB)
    (hN : ((selectedTranscriptionRows db).map (fun r => r.1.id)).Nodup) :
    (reconcileTranscription o db).jobs =
      db.jobs.map (applyRowsJ o (selectedTranscriptionRows db)) := by
  unfold reconcileTranscription processCompletedJobs
  exact foldT_jobs o _ (db, 0) hN

/-- The entries table after an analysis reconcile, list form. -/
theorem reconcileAnalysis_entries (o : Oracles) (db : DB)
    (hN : ((selectedAnalysisRows db).map (fun r => r.1.id)).Nodup) :
    (reconcileAnalysis o db).entries =
      db.entries.map (applyRowsA o (selectedAnalysisRows db)) := by
  unfold reconcileAnalysis processCompletedTranscriptions
  exact foldA_entries o _ (db, 0) hN

/-- Entry lookup through `startTranscriptionJob`: only the target entry's
`transcription_status` is written (`processing` on submission success,
`failed` on submission failure). -/
theorem entryById_startTranscriptionJob (submitOk : Bool) (jobId : Nat) (jobName : String)
    (teid : Nat) (db : DB) (eid : Nat) :
    entryById (startTranscriptionJob submitOk jobId jobName teid db).1 eid =
      (entryById db eid).map (fun x => if x.id == teid then
        (if submitOk then { x with transcriptionStatus := Status.processing }
         else { x with transcriptionStatus := Status.failed }) else x) := by
  cases submitOk with
  | true =>
    unfold startTranscriptionJob entryById updateEntry
    exact find?_map_id_entries db.entries _ (fun e => by
      by_cases h : (e.id == teid) = true <;> simp [h]) eid
  | false =>
    unfold startTranscriptionJob entryById updateEntry
    exact find?_map_id_entries db.entries _ (fun e => by
      by_cases h : (e.id == teid) = true <;> simp [h]) eid

/-- A snapshot row whose iteration is a no-op (transient poll error, failed
transcript fetch, failed upload) leaves both its job row and its entry row
exactly as they were. -/
theorem reconcileT_noop_row (o : Oracles) (db : DB) (hInv : Inv db)
    (row : Job × Nat) (hmem : row ∈ selectedTranscriptionRows db)
    (hnoop : jobOutcome o row = TranscriptionOutcome.noop) :
    jobById (reconcileTranscription o db) row.1.id = some row.1 ∧
    entryById (reconcileTranscription o db) row.1.entryId = entryById db row.1.entryId := by
  obtain ⟨hEN, hJN, hPJ, hUP⟩ := hInv
  have hNjob := nodup_selT_jobIds db hJN
  have hNent := nodup_selT_entryIds db hJN hUP
  obtain ⟨hjm, htype, hstat, e0, he0, hu0⟩ := mem_selectedTranscriptionRows.mp hmem
  constructor
  · rw [jobById_reconcileTranscription o db hNjob, jobById_of_mem hJN hjm]
    show some (applyRowsJ o (selectedTranscriptionRows db) row.1) = some row.1
    rw [applyRowsJ_self o _ hNjob row hmem]
    unfold jobUpd
    rw [hnoop]
  · rw [entryById_reconcileTranscription o db hNent, he0]
    show some (applyRowsT o (selectedTranscriptionRows db) e0) = some e0
    have he0id : e0.id = row.1.entryId := (mem_of_entryById he0).2
    rw [applyRowsT_self o _ hNent row hmem e0 he0id.symm]
    unfold entryUpdT
    rw [hnoop]

theorem noBackwardStep_refl (e : Entry) : NoBackwardStep e e :=
  ⟨fun _ => rfl, fun _ => rfl, id, id⟩

theorem noBackwardStep_trans {a b c : Entry}
    (h1 : NoBackwardStep a b) (h2 : NoBackwardStep b c) : NoBackwardStep a c := by
  refine ⟨fun ht => ?_, fun ht => ?_, fun hp => ?_, fun hp => ?_⟩
  · have hb := h1.1 ht
    have htb : statusTerminal b.transcriptionStatus := by
      rw [hb]
      exact ht
    rw [h2.1 htb, hb]
  · have hb := h1.2.1 ht
    have htb : statusTerminal b.analysisStatus := by
      rw [hb]
      exact ht
    rw [h2.2.1 htb, hb]
  · exact h1.2.2.1 (h2.2.2.1 hp)
  · exact h1.2.2.2 (h2.2.2.2 hp)

end RowLemmas

/-- C3 counterexample: on three tokens with confidences 0.9, 0.8 and 0.7 the
code's aggregate is 80 (the mean times 100), not the arithmetic mean 0.8
the claim states; the spec-side mean of the same tokens is 0.8. -/
theorem claim3_counterexample :
    calculateAverageConfidence claim3Items = 80 ∧ (80 : ℚ) ≠ 8/10 ∧
    specMeanConfidence claim3Items = 8/10 := by
  refine ⟨?_, by norm_num, ?_⟩
  · norm_num [calculateAverageConfidence, claim3Items, List.filterMap]
  · norm_num [specMeanConfidence, claim3Items, List.filterMap]

/-- C3 amended: `calculateAverageConfidence` returns 100 times the
arithmetic mean of the token-level confidence values (a percentage), and 0
when there are no scoreable tokens (`specMeanConfidence` is the spec-side
mean, which is 0 on zero scoreable tokens). -/
theorem claim3_percent_of_mean (items : List TranscriptItem) :
    calculateAverageConfidence items = 100 * specMeanConfidence items := by
  simp only [calculateAverageConfidence, specMeanConfidence]
  by_cases h : items.isEmpty
  · have he : items = [] := by
      cases items with
      | nil => rfl
      | cons a l => simp at h
    subst he
    norm_num
  · rw [if_neg h]
    by_cases hv : (items.filterMap
        (fun it => it.alternatives.head?.map (fun a => a.confidence.getD 0))).isEmpty
    · rw [if_pos hv, if_pos hv]
      norm_num
    · rw [if_neg hv, if_neg hv]
      ring

/-- C4 (code bug): a scheduler tick on a store holding a freshly uploaded
entry (`transcription_status = 'pending'`, no job row) performs no write at
all: the entry stays `pending` and no processing job is created, because
`processJobs` only reconciles jobs already in `processing` and entries whose
transcription is already complete — it never queries pending entries nor
calls `startTranscriptionJob`. -/
theorem claim4_tick_skips_pending :
    tickBody quietOracles claim4DB = (claim4DB, 0) ∧
    (entryById claim4DB 1).map Entry.transcriptionStatus = some Status.pending ∧
    (tick quietOracles claim4DB).jobs = [] := by
  refine ⟨by decide, by decide, by decide⟩

/-- C6 counterexample: with the blob store down for reads, the analysis
reconcile does not leave the eligible entry unchanged for a retry — the
per-entry catch marks `analysis_status = 'failed'`. -/
theorem claim6_counterexample :
    (entryById claim6DB 1).map Entry.analysisStatus = some Status.pending ∧
    (entryById (reconcileAnalysis claim6Oracles claim6DB) 1).map Entry.analysisStatus
      = some Status.failed := by
  exact ⟨by decide, by decide⟩

/-- C8 (code bug): the interval callback invokes `processJobs` without
awaiting the previous invocation, and the only gate in `processJobs` is the
`isRunning` flag — `SchedulerService` has no in-progress marker — so two
interval firings while a slow tick is still executing leave two tick bodies
running concurrently. -/
theorem claim8_concurrent_ticks :
    activeTicks true [SchedulerEvent.intervalFire, SchedulerEvent.intervalFire] = 2 ∧
    activeTicks false [SchedulerEvent.intervalFire, SchedulerEvent.intervalFire] = 0 :=
  ⟨rfl, rfl⟩

/-- C9 counterexample: with the scheduler stopped, `forceRun` returns
immediately (`processJobs` begins with `if (!this.isRunning) return`),
although the tick body would have advanced the store — so `forceRun` does
not trigger a tick "in every state of the Scheduler". -/
theorem claim9_counterexample :
    forceRun { isRunning := false, processingInterval := none } claim9Oracles claim9DB
      = (claim9DB, 0) ∧
    (tickBody claim9Oracles claim9DB).1 ≠ claim9DB := by
  exact ⟨rfl, by decide⟩

/-- C9 amended: `forceRun` delegates to `processJobs`, which performs the
full tick body only when `isRunning` is true and is a no-op (no reads, no
writes) when the scheduler is stopped. -/
theorem claim9_forceRun_guarded (ss : SchedulerState) (o : Oracles) (db : DB) :
    forceRun ss o db = (if ss.isRunning then tickBody o db else (db, 0)) ∧
    forceRun { isRunning := false, processingInterval := ss.processingInterval } o db
      = (db, 0) :=
  ⟨rfl, rfl⟩

/-- C10: `getStatus` reports the current `isRunning` flag and interval
presence, and its `lastRun` field is the wall clock at the moment of the
call, identical across scheduler states — no tick history is recorded. -/
theorem claim10_getStatus_lastRun (ss ss' : SchedulerState) (now : String) :
    (getStatus ss now).isRunning = ss.isRunning ∧
    (getStatus ss now).hasInterval = ss.processingInterval.isSome ∧
    (getStatus ss now).lastRun = now ∧
    (getStatus ss now).lastRun = (getStatus ss' now).lastRun :=
  ⟨rfl, rfl, rfl, rfl⟩

/-- C1: neither the transcription reconcile nor `startTranscriptionJob` ever
writes `analysis_status`; and whenever the analysis reconcile moves an
entry's `analysis_status` out of `pending`, that entry had
`transcription_status = 'completed'` and a non-nil transcript reference in
the state the pass was invoked on (the pass itself never touches those two
fields, so the conditions also hold at the moment of the write). -/
theorem claim1_analysis_gate (o : Oracles) (db : DB) (eid : Nat) :
    ((entryById (reconcileTranscription o db) eid).map Entry.analysisStatus =
        (entryById db eid).map Entry.analysisStatus) ∧
    (∀ submitOk jobId jobName teid,
        (entryById (startTranscriptionJob submitOk jobId jobName teid db).1 eid).map
            Entry.analysisStatus =
          (entryById db eid).map Entry.analysisStatus) ∧
    (EntriesNodup db → ∀ e e', entryById db eid = some e →
        entryById (reconcileAnalysis o db) eid = some e' →
        e.analysisStatus = Status.pending → e'.analysisStatus ≠ Status.pending →
        e.transcriptionStatus = Status.completed ∧ e.rawTranscriptS3Key.isSome = true) := by
  refine ⟨analysisStatus_reconcileTranscription o db eid,
    fun submitOk jobId jobName teid =>
      analysisStatus_startTranscriptionJob submitOk jobId jobName teid db eid,
    fun hN e e' he he' hpend hne => ?_⟩
  have hNsel := nodup_selA_entryIds db hN
  rw [entryById_reconcileAnalysis o db hNsel eid, he] at he'
  have heq : applyRowsA o (selectedAnalysisRows db) e = e' := Option.some.inj he'
  unfold applyRowsA at heq
  cases hfind : (selectedAnalysisRows db).find? (fun r => r.1.id == e.id) with
  | none =>
    rw [hfind] at heq
    exact absurd (heq ▸ hpend) hne
  | some r =>
    have hmem := List.mem_of_find?_eq_some hfind
    obtain ⟨hment, ht, hp, hk, hu⟩ := mem_selectedAnalysisRows.mp hmem
    have hrid : r.1.id = e.id := by simpa using List.find?_some hfind
    have hre : r.1 = e := eq_of_mem_nodup Entry.id hN hment (mem_of_entryById he).1 hrid
    rw [hre] at ht hk
    exact ⟨ht, hk⟩

/-- C1 witness: on a concrete store whose single entry is analysed in one
pass, the gate theorem yields the selection conditions. -/
theorem claim1_witness :
    claim1Entry.transcriptionStatus = Status.completed ∧
    claim1Entry.rawTranscriptS3Key.isSome = true :=
  (claim1_analysis_gate claim1WitnessOracles claim1WitnessDB 1).2.2
    (by unfold EntriesNodup; decide)
    claim1Entry claim1EntryAfter (by decide) (by decide) (by decide) (by decide)

/-- C5: a transcription snapshot row whose provider-status query throws is
left exactly as it was — job row unchanged (still `processing`), entry row
unchanged, no job row created or deleted — while every other snapshot row is
still processed to the result its own provider answer dictates. -/
theorem claim5_transient_poll (o : Oracles) (db : DB) (hInv : Inv db)
    (row : Job × Nat) (hmem : row ∈ selectedTranscriptionRows db)
    (herr : o.transcribeStatus row.1.awsJobId = Except.error ()) :
    jobById (reconcileTranscription o db) row.1.id = some row.1 ∧
    row.1.status = Status.processing ∧
    entryById (reconcileTranscription o db) row.1.entryId = entryById db row.1.entryId ∧
    (reconcileTranscription o db).jobs.length = db.jobs.length ∧
    (∀ row' ∈ selectedTranscriptionRows db,
        jobById (reconcileTranscription o db) row'.1.id = some (jobUpd o row' row'.1)) := by
  have hnoop : jobOutcome o row = TranscriptionOutcome.noop := by
    unfold jobOutcome
    rw [herr]
  obtain ⟨hjm, htype, hstat, e0, he0, hu0⟩ := mem_selectedTranscriptionRows.mp hmem
  obtain ⟨hunch1, hunch2⟩ := reconcileT_noop_row o db hInv row hmem hnoop
  obtain ⟨hEN, hJN, hPJ, hUP⟩ := hInv
  have hNjob := nodup_selT_jobIds db hJN
  refine ⟨hunch1, hstat, hunch2, ?_, fun row' hmem' => ?_⟩
  · rw [reconcileTranscription_jobs o db hNjob]
    exact List.length_map _ _
  · obtain ⟨hjm', _, _, _⟩ := mem_selectedTranscriptionRows.mp hmem'
    rw [jobById_reconcileTranscription o db hNjob, jobById_of_mem hJN hjm']
    show some (applyRowsJ o (selectedTranscriptionRows db) row'.1) = _
    rw [applyRowsJ_self o _ hNjob row' hmem']

/-- C5 witness: job 1's poll throws and is left untouched; job 2 in the same
pass still completes. -/
theorem claim5_witness :
    jobById (reconcileTranscription claim5WitnessOracles claim5WitnessDB) 1
      = some claim5Row1.1 ∧
    entryById (reconcileTranscription claim5WitnessOracles claim5WitnessDB) 10
      = entryById claim5WitnessDB 10 ∧
    (reconcileTranscription claim5WitnessOracles claim5WitnessDB).jobs.length
      = claim5WitnessDB.jobs.length ∧
    jobById (reconcileTranscription claim5WitnessOracles claim5WitnessDB) 2
      = some (jobUpd claim5WitnessOracles claim5Row2 claim5Row2.1) := by
  have h := claim5_transient_poll claim5WitnessOracles claim5WitnessDB
    (by unfold Inv EntriesNodup JobsNodup ProcessingJobEntryProcessing UniqueProcessing; decide)
    claim5Row1 (by decide) (by rfl)
  exact ⟨h.1, h.2.2.1, h.2.2.2.1, h.2.2.2.2 claim5Row2 (by decide)⟩

/-- C6 amended: a blob-store failure during the transcription reconcile is
caught per job and leaves the job and its entry unchanged for a retry; but a
blob-store failure during the analysis reconcile is caught per entry and
sets that entry's `analysis_status` to `'failed'` (terminal — not retried). -/
theorem claim6_storage_failure (o : Oracles) (db : DB) (hInv : Inv db) :
    (∀ row ∈ selectedTranscriptionRows db, ∀ uri,
        o.transcribeStatus row.1.awsJobId = Except.ok (ProviderStatus.completed uri) →
        o.s3GetTranscript uri = none →
        jobById (reconcileTranscription o db) row.1.id = some row.1 ∧
        entryById (reconcileTranscription o db) row.1.entryId
          = entryById db row.1.entryId) ∧
    (∀ row ∈ selectedAnalysisRows db,
        o.s3GetContent (row.1.rawTranscriptS3Key.getD "") = none →
        (entryById (reconcileAnalysis o db) row.1.id).map Entry.analysisStatus
          = some Status.failed) := by
  obtain ⟨hEN, hJN, hPJ, hUP⟩ := hInv
  constructor
  · intro row hmem uri hs hg
    have hnoop : jobOutcome o row = TranscriptionOutcome.noop := by
      simp [jobOutcome, hs, hg]
    exact reconcileT_noop_row o db ⟨hEN, hJN, hPJ, hUP⟩ row hmem hnoop
  · intro row hmem hg
    have hfail : analysisOutcome o row = AnalysisOutcome.failure := by
      unfold analysisOutcome
      rw [hg]
    have hNsel := nodup_selA_entryIds db hEN
    obtain ⟨hment, ht, hp, hk, hu⟩ := mem_selectedAnalysisRows.mp hmem
    rw [entryById_reconcileAnalysis o db hNsel, entryById_of_mem hEN hment]
    show (some (applyRowsA o (selectedAnalysisRows db) row.1)).map Entry.analysisStatus = _
    rw [applyRowsA_self o _ hNsel row hmem row.1 rfl]
    unfold entryUpdA
    rw [hfail]
    rfl

/-- One transcription reconcile pass never moves an entry's statuses
backward (under the reachable-state invariant). -/
theorem noBackward_reconcileT (o : Oracles) (db : DB) (hInv : Inv db) (eid : Nat)
    (e : Entry) (he : entryById db eid = some e) (e' : Entry)
    (he' : entryById (reconcileTranscription o db) eid = some e') :
    NoBackwardStep e e' := by
  obtain ⟨hEN, hJN, hPJ, hUP⟩ := hInv
  have hNent := nodup_selT_entryIds db hJN hUP
  rw [entryById_reconcileTranscription o db hNent, he] at he'
  have heq : applyRowsT o (selectedTranscriptionRows db) e = e' := Option.some.inj he'
  unfold applyRowsT at heq
  cases hfind : (selectedTranscriptionRows db).find? (fun r => r.1.entryId == e.id) with
  | none =>
    have heq2 : e = e' := by
      rw [hfind] at heq
      exact heq
    exact heq2 ▸ noBackwardStep_refl e
  | some r =>
    have heq2 : entryUpdT o r e = e' := by
      rw [hfind] at heq
      exact heq
    have hmem := List.mem_of_find?_eq_some hfind
    obtain ⟨hjm, htype, hstat, e0, he0, _⟩ := mem_selectedTranscriptionRows.mp hmem
    have hrid : r.1.entryId = e.id := by simpa using List.find?_some hfind
    have hproc : e.transcriptionStatus = Status.processing :=
      hPJ r.1 hjm htype hstat e (mem_of_entryById he).1 hrid.symm
    subst heq2
    unfold NoBackwardStep entryUpdT
    cases ho : jobOutcome o r with
    | noop => exact ⟨fun _ => rfl, fun _ => rfl, id, id⟩
    | complete key =>
      refine ⟨fun hterm => ?_, fun _ => rfl, fun hp => ?_, fun hp => hp⟩
      · rw [hproc] at hterm
        rcases hterm with h | h <;> simp at h
      · simp at hp
    | fail reason =>
      refine ⟨fun hterm => ?_, fun _ => rfl, fun hp => ?_, fun hp => hp⟩
      · rw [hproc] at hterm
        rcases hterm with h | h <;> simp at h
      · simp at hp

/-- One analysis reconcile pass never moves an entry's statuses backward. -/
theorem noBackward_reconcileA (o : Oracles) (db : DB) (hEN : EntriesNodup db) (eid : Nat)
    (e : Entry) (he : entryById db eid = some e) (e' : Entry)
    (he' : entryById (reconcileAnalysis o db) eid = some e') :
    NoBackwardStep e e' := by
  have hNsel := nodup_selA_entryIds db hEN
  rw [entryById_reconcileAnalysis o db hNsel, he] at he'
  have heq : applyRowsA o (selectedAnalysisRows db) e = e' := Option.some.inj he'
  unfold applyRowsA at heq
  cases hfind : (selectedAnalysisRows db).find? (fun r => r.1.id == e.id) with
  | none =>
    have heq2 : e = e' := by
      rw [hfind] at heq
      exact heq
    exact heq2 ▸ noBackwardStep_refl e
  | some r =>
    have heq2 : entryUpdA o r e = e' := by
      rw [hfind] at heq
      exact heq
    have hmem := List.mem_of_find?_eq_some hfind
    obtain ⟨hment, ht, hp, hk, _⟩ := mem_selectedAnalysisRows.mp hmem
    have hrid : r.1.id = e.id := by simpa using List.find?_some hfind
    have hre : r.1 = e := eq_of_mem_nodup Entry.id hEN hment (mem_of_entryById he).1 hrid
    have hpend : e.analysisStatus = Status.pending := hre ▸ hp
    subst heq2
    unfold NoBackwardStep entryUpdA
    cases ho : analysisOutcome o r with
    | success key =>
      refine ⟨fun _ => rfl, fun hterm => ?_, fun hp' => hp', fun hp' => ?_⟩
      · rw [hpend] at hterm
        rcases hterm with h | h <;> simp at h
      · simp at hp'
    | failure =>
      refine ⟨fun _ => rfl, fun hterm => ?_, fun hp' => hp', fun hp' => ?_⟩
      · rw [hpend] at hterm
        rcases hterm with h | h <;> simp at h
      · simp at hp'

/-- `startTranscriptionJob` on a pending entry never moves any entry's
statuses backward. -/
theorem noBackward_start (submitOk : Bool) (jobId : Nat) (jobName : String) (teid : Nat)
    (db : DB)
    (hpre : ∀ et, entryById db teid = some et → et.transcriptionStatus = Status.pending)
    (eid : Nat) (e : Entry) (he : entryById db eid = some e) (e' : Entry)
    (he' : entryById (startTranscriptionJob submitOk jobId jobName teid db).1 eid = some e') :
    NoBackwardStep e e' := by
  rw [entryById_startTranscriptionJob, he] at he'
  have heq : (if e.id == teid then
      (if submitOk then { e with transcriptionStatus := Status.processing }
       else { e with transcriptionStatus := Status.failed }) else e) = e' :=
    Option.some.inj he'
  by_cases hc : (e.id == teid) = true
  · rw [if_pos hc] at heq
    have heid : e.id = eid := (mem_of_entryById he).2
    have hteid : eid = teid := by
      rw [← heid]
      simpa using hc
    have hpend : e.transcriptionStatus = Status.pending := by
      refine hpre e ?_
      rw [← hteid]
      exact he
    cases submitOk with
    | true =>
      rw [if_pos rfl] at heq
      subst heq
      refine ⟨fun hterm => ?_, fun _ => rfl, fun hp => ?_, fun hp => hp⟩
      · rw [hpend] at hterm
        rcases hterm with h | h <;> simp at h
      · simp at hp
    | false =>
      rw [if_neg (by simp)] at heq
      subst heq
      refine ⟨fun hterm => ?_, fun _ => rfl, fun hp => ?_, fun hp => hp⟩
      · rw [hpend] at hterm
        rcases hterm with h | h <;> simp at h
      · simp at hp
  · rw [if_neg hc] at heq
    exact heq ▸ noBackwardStep_refl e

/-- C2: on a well-formed store, each pipeline operation — transcription
reconcile, analysis reconcile, a full scheduler tick, and
`startTranscriptionJob` on a pending entry — leaves every terminal
(`completed`/`failed`) entry status unchanged and never writes a status back
to `pending`. -/
theorem claim2_monotonic (o : Oracles) (db : DB) (hInv : Inv db) (eid : Nat) (e : Entry)
    (he : entryById db eid = some e) :
    (∀ e', entryById (reconcileTranscription o db) eid = some e' → NoBackwardStep e e') ∧
    (∀ e', entryById (reconcileAnalysis o db) eid = some e' → NoBackwardStep e e') ∧
    (∀ e', entryById (tick o db) eid = some e' → NoBackwardStep e e') ∧
    (∀ submitOk jobId jobName teid,
        (∀ et, entryById db teid = some et → et.transcriptionStatus = Status.pending) →
        ∀ e', entryById (startTranscriptionJob submitOk jobId jobName teid db).1 eid
          = some e' → NoBackwardStep e e') := by
  obtain ⟨hEN, hJN, hPJ, hUP⟩ := hInv
  have hNent := nodup_selT_entryIds db hJN hUP
  refine ⟨fun e' he' => noBackward_reconcileT o db ⟨hEN, hJN, hPJ, hUP⟩ eid e he e' he',
    fun e' he' => noBackward_reconcileA o db hEN eid e he e' he',
    fun e' he' => ?_,
    fun submitOk jobId jobName teid hpre e' he' =>
      noBackward_start submitOk jobId jobName teid db hpre eid e he e' he'⟩
  have hmid : entryById (reconcileTranscription o db) eid
      = some (applyRowsT o (selectedTranscriptionRows db) e) := by
    rw [entryById_reconcileTranscription o db hNent, he]
    rfl
  have h1 := noBackward_reconcileT o db ⟨hEN, hJN, hPJ, hUP⟩ eid e he _ hmid
  have hENT : EntriesNodup (reconcileTranscription o db) :=
    entriesNodup_reconcileTranscription o db hNent hEN
  have h2 := noBackward_reconcileA o (reconcileTranscription o db) hENT eid
    (applyRowsT o (selectedTranscriptionRows db) e) hmid e' (by rw [← tick_eq]; exact he')
  exact noBackwardStep_trans h1 h2

/-- C2 witness: on a concrete store where the tick completes entry 2's
transcription and analysis, the terminal entry 1 is untouched and the tick
step from entry 1 to itself is monotone. -/
theorem claim2_witness : NoBackwardStep claim2Entry1 claim2Entry1 := by
  have h := claim2_monotonic claim2WitnessOracles claim2WitnessDB
    (by unfold Inv EntriesNodup JobsNodup ProcessingJobEntryProcessing UniqueProcessing; decide)
    1 claim2Entry1 (by decide)
  exact h.2.2.1 claim2Entry1 (by decide)

/-- After a full pass (transcription reconcile then analysis reconcile),
every transcription snapshot row still selected is one whose iteration was a
no-op, and the same oracle answers make it a no-op again. -/
theorem selT_after_tick_noop (o : Oracles) (db : DB) (hInv : Inv db) :
    ∀ row' ∈ selectedTranscriptionRows
        (reconcileAnalysis o (reconcileTranscription o db)),
      jobOutcome o row' = TranscriptionOutcome.noop := by
  obtain ⟨hEN, hJN, hPJ, hUP⟩ := hInv
  have hNjob := nodup_selT_jobIds db hJN
  have hNent := nodup_selT_entryIds db hJN hUP
  have hENT : EntriesNodup (reconcileTranscription o db) :=
    entriesNodup_reconcileTranscription o db hNent hEN
  have hNselA := nodup_selA_entryIds (reconcileTranscription o db) hENT
  have hlook : ∀ x, entryById (reconcileAnalysis o (reconcileTranscription o db)) x
      = (entryById db x).map (fun e =>
          applyRowsA o (selectedAnalysisRows (reconcileTranscription o db))
            (applyRowsT o (selectedTranscriptionRows db) e)) := by
    intro x
    rw [entryById_reconcileAnalysis o _ hNselA, entryById_reconcileTranscription o db hNent,
      Option.map_map]
    rfl
  intro row' hmem'
  obtain ⟨hjm', htype', hstat', e1, he1, hu1⟩ := mem_selectedTranscriptionRows.mp hmem'
  have hjobs1 : (reconcileAnalysis o (reconcileTranscription o db)).jobs
      = db.jobs.map (applyRowsJ o (selectedTranscriptionRows db)) := by
    rw [reconcileAnalysis_jobs, reconcileTranscription_jobs o db hNjob]
  rw [hjobs1] at hjm'
  obtain ⟨j, hjdb, hjeq⟩ := List.mem_map.mp hjm'
  cases hfind : (selectedTranscriptionRows db).find? (fun r => r.1.id == j.id) with
  | none =>
    exfalso
    have hjr : row'.1 = j := by
      rw [← hjeq]
      unfold applyRowsJ
      rw [hfind]
    rw [hlook row'.1.entryId] at he1
    obtain ⟨e0, he0, _⟩ := Option.map_eq_some'.mp he1
    have hmem0 : (j, e0.userId) ∈ selectedTranscriptionRows db := by
      refine mem_selectedTranscriptionRows.mpr ⟨hjdb, ?_, ?_, e0, ?_, rfl⟩
      · rw [← hjr]
        exact htype'
      · rw [← hjr]
        exact hstat'
      · show entryById db j.entryId = some e0
        rw [← hjr]
        exact he0
    have hcontra := List.find?_eq_none.mp hfind (j, e0.userId) hmem0
    simp at hcontra
  | some r =>
    have hrmem := List.mem_of_find?_eq_some hfind
    have hrid : r.1.id = j.id := by simpa using List.find?_some hfind
    obtain ⟨hrdb, hrtype, hrstat, er, her, hur⟩ := mem_selectedTranscriptionRows.mp hrmem
    have hrj : r.1 = j := eq_of_mem_nodup Job.id hJN hrdb hjdb hrid
    have hjeq' : jobUpd o r j = row'.1 := by
      rw [← hjeq]
      unfold applyRowsJ
      rw [hfind]
    cases ho : jobOutcome o r with
    | complete key =>
      exfalso
      have hc : row'.1.status = Status.completed := by
        rw [← hjeq']
        unfold jobUpd
        rw [ho]
      rw [hc] at hstat'
      simp at hstat'
    | fail reason =>
      exfalso
      have hc : row'.1.status = Status.failed := by
        rw [← hjeq']
        unfold jobUpd
        rw [ho]
      rw [hc] at hstat'
      simp at hstat'
    | noop =>
      have h1 : row'.1 = r.1 := by
        rw [← hjeq']
        unfold jobUpd
        rw [ho, hrj]
      have heid : row'.1.entryId = r.1.entryId := by rw [h1]
      rw [heid, hlook r.1.entryId, her] at he1
      have he1' : applyRowsA o (selectedAnalysisRows (reconcileTranscription o db))
          (applyRowsT o (selectedTranscriptionRows db) er) = e1 := Option.some.inj he1
      have h2 : row'.2 = r.2 := by
        rw [hu1, hur, ← he1', applyRowsA_userId, applyRowsT_userId]
      have hrow : row' = r := Prod.ext h1 h2
      rw [hrow]
      exact ho

/-- After a full pass, no entry is still eligible for analysis: every entry
the analysis reconcile selected has been driven to a terminal analysis
status, and nothing else became eligible. -/
theorem selA_after_tick_nil (o : Oracles) (db : DB) (hInv : Inv db) :
    selectedAnalysisRows (reconcileAnalysis o (reconcileTranscription o db)) = [] := by
  obtain ⟨hEN, hJN, hPJ, hUP⟩ := hInv
  have hNent := nodup_selT_entryIds db hJN hUP
  have hENT : EntriesNodup (reconcileTranscription o db) :=
    entriesNodup_reconcileTranscription o db hNent hEN
  have hNselA := nodup_selA_entryIds (reconcileTranscription o db) hENT
  rw [List.eq_nil_iff_forall_not_mem]
  intro row hrow
  obtain ⟨hment, ht', hp', hk', hu'⟩ := mem_selectedAnalysisRows.mp hrow
  rw [reconcileAnalysis_entries o _ hNselA] at hment
  obtain ⟨x, hxT, hxeq⟩ := List.mem_map.mp hment
  cases hfind : (selectedAnalysisRows (reconcileTranscription o db)).find?
      (fun r' => r'.1.id == x.id) with
  | some r' =>
    have hne : row.1.analysisStatus ≠ Status.pending := by
      rw [← hxeq]
      unfold applyRowsA
      rw [hfind]
      exact entryUpdA_analysisStatus_ne_pending o r' x
    exact hne hp'
  | none =>
    have hxrow : x = row.1 := by
      rw [← hxeq]
      unfold applyRowsA
      rw [hfind]
    have huT : userById (reconcileTranscription o db) row.1.userId = some row.2 := by
      unfold userById at hu' ⊢
      rw [← reconcileAnalysis_users o (reconcileTranscription o db)]
      exact hu'
    have hmemA : (x, row.2) ∈ selectedAnalysisRows (reconcileTranscription o db) := by
      refine mem_selectedAnalysisRows.mpr ⟨hxT, ?_, ?_, ?_, ?_⟩
      · show x.transcriptionStatus = Status.completed
        rw [hxrow]
        exact ht'
      · show x.analysisStatus = Status.pending
        rw [hxrow]
        exact hp'
      · show x.rawTranscriptS3Key.isSome = true
        rw [hxrow]
        exact hk'
      · show userById (reconcileTranscription o db) x.userId = some row.2
        rw [hxrow]
        exact huT
    have hcontra := List.find?_eq_none.mp hfind (x, row.2) hmemA
    simp at hcontra

/-- C7: running a full pass (transcription reconcile, then analysis
reconcile) a second time with the same oracle answers performs zero record
or blob writes and leaves the store exactly as the first pass left it. -/
theorem claim7_idempotent (o : Oracles) (db : DB) (hInv : Inv db) :
    tickBody o (tickBody o db).1 = ((tickBody o db).1, 0) := by
  have h1 : (tickBody o db).1 = reconcileAnalysis o (reconcileTranscription o db) := rfl
  have hT : processCompletedJobs o (reconcileAnalysis o (reconcileTranscription o db))
      = (reconcileAnalysis o (reconcileTranscription o db), 0) := by
    unfold processCompletedJobs
    exact foldT_noop o _ _ (selT_after_tick_noop o db hInv)
  have hA : processCompletedTranscriptions o
        (reconcileAnalysis o (reconcileTranscription o db))
      = (reconcileAnalysis o (reconcileTranscription o db), 0) := by
    unfold processCompletedTranscriptions
    rw [selA_after_tick_nil o db hInv]
    rfl
  rw [h1]
  show ((processCompletedTranscriptions o
      (processCompletedJobs o (reconcileAnalysis o (reconcileTranscription o db))).1).1,
    (processCompletedJobs o (reconcileAnalysis o (reconcileTranscription o db))).2 +
      (processCompletedTranscriptions o
        (processCompletedJobs o (reconcileAnalysis o (reconcileTranscription o db))).1).2)
    = (reconcileAnalysis o (reconcileTranscription o db), 0)
  rw [hT]
  simp only []
  rw [hA]
  rfl

/-- C7 witness: on a concrete store whose first pass completes a
transcription and an analysis, the second pass is a no-op with zero
writes. -/
theorem claim7_witness :
    tickBody claim7WitnessOracles (tickBody claim7WitnessOracles claim7WitnessDB).1
      = ((tickBody claim7WitnessOracles claim7WitnessDB).1, 0) :=
  claim7_idempotent claim7WitnessOracles claim7WitnessDB
    (by unfold Inv EntriesNodup JobsNodup ProcessingJobEntryProcessing UniqueProcessing; decide)

/-- C6 witness: on the combined concrete store, the job whose transcript
fetch fails is untouched while the eligible analysis entry is marked
`failed`. -/
theorem claim6_witness :
    jobById (reconcileTranscription claim6WitnessOracles claim6WitnessDB) 3
      = some claim6JobRow.1 ∧
    entryById (reconcileTranscription claim6WitnessOracles claim6WitnessDB) 1
      = entryById claim6WitnessDB 1 ∧
    (entryById (reconcileAnalysis claim6WitnessOracles claim6WitnessDB) 2).map
        Entry.analysisStatus = some Status.failed := by
  have h := claim6_storage_failure claim6WitnessOracles claim6WitnessDB
    (by unfold Inv EntriesNodup JobsNodup ProcessingJobEntryProcessing UniqueProcessing; decide)
  have h1 := h.1 claim6JobRow (by decide) "uriX" (by rfl) (by rfl)
  exact ⟨h1.1, h1.2, h.2 claim6EntryRow (by decide) (by decide)⟩

end HealthDiary
